import Mathlib

/-!
# go-gin-template: a verification development

A shallow embedding of the user CRUD service (`models`, `middleware`,
`service`, `controller`, `router`) and theorems about its request binding,
response envelopes and store operations.

Conventions of the embedding:

* Go `int` is `Int` (with an explicit 64-bit wrap where arithmetic can
  overflow), Go `uint` is `Nat`, pointers to optional fields are `Option`.
* A `*gin.Context` is the record `Context`; a function that mutates the
  context returns the new record.  The record also carries the events sent to
  the global logger and the state behind the handler closure (for the user
  routes: the database), so that every effect of a request is visible in it.
* Functions of third-party libraries whose algorithm is not part of this
  repository (JSON decoding, form decoding of the DTOs without `form` tags,
  the e-mail syntax check, `strconv.Quote`) are parameters.
-/

namespace GinTemplate

/-! ## models/user.go -/

/-- The `User` entity; `gorm.DeletedAt` is the nullable soft-delete stamp. -/
structure User where
  ID : Nat
  CreatedAt : Nat
  UpdatedAt : Nat
  DeletedAt : Option Nat
  Name : String
  Email : String
  Age : Int
  Phone : String
deriving DecidableEq, Repr

/-- The DTO `CreateUserRequest`. -/
structure CreateUserRequest where
  Name : String
  Email : String
  Age : Int
  Phone : String
deriving DecidableEq, Repr

/-- The DTO `UpdateUserRequest`; a nil pointer is `none`. -/
structure UpdateUserRequest where
  Name : Option String
  Email : Option String
  Age : Option Int
  Phone : Option String
deriving DecidableEq, Repr

/-- The DTO `GetUsersQuery`. -/
structure GetUsersQuery where
  Page : Int
  PageSize : Int
  Name : String
  Email : String
deriving DecidableEq, Repr

/-! ## middleware/handler.go -/

/-- The unified response structure; `Data` is `any` with `omitempty`, the nil
interface being `none`. -/
structure Response (α : Type) where
  Code : Int
  Message : String
  Data : Option α
deriving DecidableEq, Repr

/-- The part of `*http.Request` the service reads. -/
structure Request where
  Method : String
  Path : String
  Query : List (String × String)
  Body : String
deriving DecidableEq, Repr

/-- One event sent to the zerolog logger. -/
structure LogEvent where
  level : String
  fields : List (String × String)
  msg : String
deriving DecidableEq, Repr

/-- The request context: the request, the path parameters, what `c.JSON` has
sent with a body (status and envelope of each call, in order, each as it goes
out on a writer that has not been written to), the statuses it has sent
without a body, the abort flag, the value of a panic raised while serving
(none in a normal run), the logger output and the state `σ` the handler closes
over. -/
structure Context (α σ : Type) where
  Request : Request
  Params : List (String × String)
  Writer : List (Int × Response α)
  bodyless : List Int
  aborted : Bool
  panicked : Option String
  log : List LogEvent
  app : σ

/-- The function `bodyAllowedForStatus` of gin: no body for 1xx, 204 and 304. -/
def bodyAllowedForStatus (status : Int) : Bool :=
  if 100 ≤ status ∧ status ≤ 199 then false
  else if status = 204 then false
  else if status = 304 then false
  else true

/-- The method `c.JSON(code, obj)`, that is `c.Render(code, render.JSON)`:
`c.Status(code)` sets the status only when `code` is positive, so a
non-positive code leaves the default status 200; for a code that allows no body
only the header is written; otherwise the envelope is written, and `net/http`
panics when the status to send is below 100 or above 999. -/
def Context.JSON {α σ : Type} (c : Context α σ) (code : Int) (obj : Response α) : Context α σ :=
  let status := if code > 0 then code else 200
  if bodyAllowedForStatus code = false then
    { c with bodyless := c.bodyless ++ [status] }
  else if status < 100 ∨ status > 999 then
    { c with panicked := some "invalid WriteHeader code" }
  else
    { c with Writer := c.Writer ++ [(status, obj)] }

/-- The method `c.Abort()`. -/
def Context.Abort {α σ : Type} (c : Context α σ) : Context α σ :=
  { c with aborted := true }

/-- Appends events to the logger output. -/
def Context.emit {α σ : Type} (c : Context α σ) (evs : List LogEvent) : Context α σ :=
  { c with log := c.log ++ evs }

def StatusOK : Int := 200
def StatusBadRequest : Int := 400
def StatusNotFound : Int := 404
def StatusInternalServerError : Int := 500

/-- The function `ErrorResponse`. -/
def ErrorResponse {α σ : Type} (c : Context α σ) (code : Int) (message : String) : Context α σ :=
  c.JSON code { Code := code, Message := message, Data := none }

/-- The function `SuccessResponse`; `data` is `any`, `none` the nil interface. -/
def SuccessResponse {α σ : Type} (c : Context α σ) (data : Option α) : Context α σ :=
  c.JSON StatusOK { Code := StatusOK, Message := "success", Data := data }

/-- An error returned by a gin binding call: a `validator.ValidationErrors` or
any other error (malformed JSON, a query value that is not a number). -/
inductive BindError where
  | validation (text : String)
  | other (text : String)
deriving DecidableEq, Repr

/-- The method `err.Error()`. -/
def BindError.Error : BindError → String
  | .validation text => text
  | .other text => text

/-- The reflection and binding operations `BindAndCall` uses, over the
declared bind types `T` and the values `D` of those types: `New` is
`reflect.New(paramType)` (a zero-valued instance), and the two binders are
`c.ShouldBindQuery(param)` and `c.ShouldBindJSON(param)`, which decode and then
validate. -/
structure Binder (T D : Type) where
  New : T → D
  ShouldBindQuery : Request → D → Except BindError D
  ShouldBindJSON : Request → D → Except BindError D

/-- A `reflect.Value` in the argument list of the dynamic call. -/
inductive Value (D : Type) where
  | context
  | param (d : D)
deriving DecidableEq, Repr

/-- The type `Handler`, as `reflect.ValueOf(handler).Call(args)` runs it. -/
abbrev Handler (D α σ : Type) := List (Value D) → Context α σ → Context α σ

/-- The fields `log.With()` puts on every event of the middleware logger. -/
def loggerFields (r : Request) : List (String × String) :=
  [("method", r.Method), ("path", r.Path), ("component", "middleware")]

/-- The event of `logger.Debug().Str("binding_type", kind).Msg(msg)`. -/
def bindingEvent (r : Request) (kind msg : String) : LogEvent :=
  { level := "debug", fields := loggerFields r ++ [("binding_type", kind)], msg := msg }

/-- The event of `logger.Error().Err(err).Msg("Parameter binding failed")`. -/
def bindFailedEvent (r : Request) (err : BindError) : LogEvent :=
  { level := "error", fields := loggerFields r ++ [("error", err.Error)],
    msg := "Parameter binding failed" }

/-- The event of `logger.Debug().Msg("Calling handler with bound parameters")`. -/
def callingEvent (r : Request) : LogEvent :=
  { level := "debug", fields := loggerFields r, msg := "Calling handler with bound parameters" }

/-- The `switch c.Request.Method` of `BindAndCall` for the parameter at index
`i`: the binding result and the events it logs.  For a method outside the five
listed ones no case runs: `err` stays nil and `param` stays zero-valued. -/
def bindParam {T D : Type} (g : Binder T D) (r : Request) (i : Nat) (param : D) :
    Except BindError D × List LogEvent :=
  if r.Method = "GET" ∨ r.Method = "DELETE" then
    (g.ShouldBindQuery r param, [bindingEvent r "query" "Binding query parameters"])
  else if r.Method = "POST" ∨ r.Method = "PUT" ∨ r.Method = "PATCH" then
    if i = 0 then
      (g.ShouldBindJSON r param, [bindingEvent r "json" "Binding JSON body"])
    else
      (g.ShouldBindQuery r param, [bindingEvent r "query" "Binding query parameters"])
  else
    (.ok param, [])

/-- The loop `for i, bindType := range bindTypes` of `BindAndCall`, from index
`i` on: `.error c` is the early `return` (after the error response and the
abort), `.ok (args, c)` is the normal exit of the loop. -/
def bindLoop {T D α σ : Type} (g : Binder T D) :
    Nat → List T → List (Value D) → Context α σ →
      Except (Context α σ) (List (Value D) × Context α σ)
  | _, [], args, c => .ok (args, c)
  | i, bindType :: rest, args, c =>
    let param := g.New bindType
    let res := bindParam g c.Request i param
    let c1 := c.emit res.2
    match res.1 with
    | .error err =>
      let c2 := c1.emit [bindFailedEvent c.Request err]
      let c3 :=
        match err with
        | .validation _ => ErrorResponse c2 StatusBadRequest err.Error
        | .other _ => ErrorResponse c2 StatusBadRequest err.Error
      .error c3.Abort
    | .ok v => bindLoop g (i + 1) rest (args ++ [Value.param v]) c1

/-- The middleware `BindAndCall(handler, bindTypes...)`. -/
def BindAndCall {T D α σ : Type} (g : Binder T D) (handler : Handler D α σ)
    (bindTypes : List T) (c : Context α σ) : Context α σ :=
  match bindLoop g 0 bindTypes [Value.context] c with
  | .error c1 => c1
  | .ok (args, c1) => handler args (c1.emit [callingEvent c.Request])

/-- The struct `PathParam`. -/
structure PathParam where
  ID : String
deriving DecidableEq, Repr

/-- The function `BindPathParam`: `c.ShouldBindUri` copies the path parameter
`id` into the struct and then checks the `required` tag. -/
def BindPathParam {α σ : Type} (c : Context α σ) (param : PathParam) : Except BindError PathParam :=
  let p : PathParam :=
    match c.Params.lookup "id" with
    | some v => { param with ID := v }
    | none => param
  if p.ID = "" then
    .error (.validation
      "Key: 'PathParam.ID' Error:Field validation for 'ID' failed on the 'required' tag")
  else .ok p

/-- The function `GetPathID`. -/
def GetPathID {α σ : Type} (c : Context α σ) : Except BindError String :=
  match BindPathParam c { ID := "" } with
  | .error err => .error err
  | .ok param => .ok param.ID

/-! ## Library functions the DTO binding relies on

`strconv.ParseUint`, `strconv.ParseInt` (Go standard library), the form mapping
of gin for `GetUsersQuery`, and the checks of the `binding` struct tags. -/

/-- The largest `uint64`. -/
def maxUint64 : Nat := 2 ^ 64 - 1

/-- The digit loop of `strconv.ParseUint(s, 10, bitSize)` over the bytes of
`s`, with `n` the value read so far in a `uint64`. -/
def ParseUint.loop (maxVal : Nat) : List Char → Nat → Except String Nat
  | [], n => .ok n
  | ch :: rest, n =>
    if '0' ≤ ch ∧ ch ≤ '9' then
      let d := ch.toNat - '0'.toNat
      if n ≥ maxUint64 / 10 + 1 then .error "value out of range"
      else
        let n10 := n * 10
        let n1 := (n10 + d) % 2 ^ 64
        if n1 < n10 ∨ n1 > maxVal then .error "value out of range"
        else ParseUint.loop maxVal rest n1
    else .error "invalid syntax"

/-- The function `strconv.ParseUint(s, 10, bitSize)`. -/
def ParseUint (s : String) (bitSize : Nat) : Except String Nat :=
  if s = "" then .error "invalid syntax"
  else ParseUint.loop (2 ^ bitSize - 1) s.toList 0

/-- The function `strconv.ParseInt(s, 10, 64)`. -/
def ParseInt (s : String) : Except String Int :=
  match s.toList with
  | [] => .error "invalid syntax"
  | ch :: rest =>
    let neg := ch = '-'
    let digits := if ch = '+' ∨ ch = '-' then rest else ch :: rest
    if digits = [] then .error "invalid syntax"
    else
      match ParseUint.loop maxUint64 digits 0 with
      | .error e => .error e
      | .ok un =>
        if ¬ neg ∧ un ≥ 2 ^ 63 then .error "value out of range"
        else if neg ∧ un > 2 ^ 63 then .error "value out of range"
        else .ok (if neg then -(un : Int) else (un : Int))

/-- The text of one `validator.FieldError`. -/
def fieldError (ns field tag : String) : String :=
  "Key: '" ++ ns ++ "." ++ field ++ "' Error:Field validation for '" ++ field ++
    "' failed on the '" ++ tag ++ "' tag"

/-- Turns the failed fields of a struct into `validator.ValidationErrors`
(texts joined by newlines), or accepts the value when no field failed. -/
def validated {β : Type} (v : β) (errs : List String) : Except BindError β :=
  if errs = [] then .ok v else .error (.validation (String.intercalate "\n" errs))

/-- The failed tag of an `int` field under `min=lo,max=hi`, if any. -/
def minMax (lo hi v : Int) : Option String :=
  if v < lo then some "min" else if v > hi then some "max" else none

/-- The `binding` tags of `CreateUserRequest`: `required` on `Name`,
`required,email` on `Email`, `min=1,max=150` on `Age`; `isEmail` is the e-mail
syntax check of the validator. -/
def validateCreateUserRequest (isEmail : String → Bool) (r : CreateUserRequest) :
    Except BindError CreateUserRequest :=
  validated r
    ((if r.Name = "" then [fieldError "CreateUserRequest" "Name" "required"] else []) ++
     (if r.Email = "" then [fieldError "CreateUserRequest" "Email" "required"]
      else if isEmail r.Email then [] else [fieldError "CreateUserRequest" "Email" "email"]) ++
     (match minMax 1 150 r.Age with
      | some tag => [fieldError "CreateUserRequest" "Age" tag]
      | none => []))

/-- The `binding` tags of `UpdateUserRequest`: `omitempty,email` on `Email`,
`omitempty,min=1,max=150` on `Age`; a nil pointer is skipped. -/
def validateUpdateUserRequest (isEmail : String → Bool) (r : UpdateUserRequest) :
    Except BindError UpdateUserRequest :=
  validated r
    ((match r.Email with
      | some e => if isEmail e then [] else [fieldError "UpdateUserRequest" "Email" "email"]
      | none => []) ++
     (match r.Age with
      | some a =>
        (match minMax 1 150 a with
         | some tag => [fieldError "UpdateUserRequest" "Age" tag]
         | none => [])
      | none => []))

/-- The `binding` tags of `GetUsersQuery`: `omitempty,min=1` on `Page`,
`omitempty,min=1,max=100` on `PageSize`; a zero value is skipped. -/
def validateGetUsersQuery (q : GetUsersQuery) : Except BindError GetUsersQuery :=
  validated q
    ((if q.Page = 0 then [] else if q.Page < 1 then [fieldError "GetUsersQuery" "Page" "min"]
      else []) ++
     (if q.PageSize = 0 then [] else
      match minMax 1 100 q.PageSize with
      | some tag => [fieldError "GetUsersQuery" "PageSize" tag]
      | none => []))

/-- The function `unicode.IsSpace`. -/
def isSpace (ch : Char) : Bool :=
  ch = '\t' || ch = '\n' || ch.toNat = 11 || ch.toNat = 12 || ch = '\r' || ch = ' '
    || ch.toNat = 0x85 || ch.toNat = 0xA0 || ch.toNat = 0x1680
    || (0x2000 ≤ ch.toNat && ch.toNat ≤ 0x200A)
    || ch.toNat = 0x2028 || ch.toNat = 0x2029 || ch.toNat = 0x202F || ch.toNat = 0x205F
    || ch.toNat = 0x3000

/-- The function `strings.TrimSpace`. -/
def TrimSpace (s : String) : String :=
  String.mk ((s.toList.dropWhile isSpace).reverse.dropWhile isSpace).reverse

/-- The form mapping of an `int` field: an absent key leaves the field as it
is; the value of a present key is trimmed of white space (as for every field
that is not a string), reads as 0 when empty, and goes through `ParseInt`
otherwise. `quote` is `strconv.Quote`, which the error text of `strconv` puts
around the value. -/
def formInt (quote : String → String) (form : List (String × String)) (key : String) (cur : Int) :
    Except String Int :=
  match form.lookup key with
  | none => .ok cur
  | some v =>
    let val := TrimSpace v
    let val := if val = "" then "0" else val
    match ParseInt val with
    | .ok n => .ok n
    | .error e => .error ("strconv.ParseInt: parsing " ++ quote val ++ ": " ++ e)

/-- The form mapping of a `string` field. -/
def formString (form : List (String × String)) (key : String) (cur : String) : String :=
  match form.lookup key with
  | none => cur
  | some v => v

/-- The form mapping of the URL query into a `GetUsersQuery` (`form` tags
`page`, `page_size`, `name`, `email`), before validation. -/
def mapFormGetUsersQuery (quote : String → String) (form : List (String × String))
    (q : GetUsersQuery) : Except String GetUsersQuery :=
  match formInt quote form "page" q.Page with
  | .error e => .error e
  | .ok page =>
    match formInt quote form "page_size" q.PageSize with
    | .error e => .error e
    | .ok pageSize =>
      .ok { Page := page, PageSize := pageSize,
            Name := formString form "name" q.Name, Email := formString form "email" q.Email }

/-- The library functions that are parameters of the model: `encoding/json`
into each DTO, the form mapping into the two DTOs without `form` tags, the
e-mail syntax check of the validator, and `strconv.Quote`. -/
structure Codec where
  quote : String → String
  jsonCreateUserRequest : String → CreateUserRequest → Except String CreateUserRequest
  jsonUpdateUserRequest : String → UpdateUserRequest → Except String UpdateUserRequest
  jsonGetUsersQuery : String → GetUsersQuery → Except String GetUsersQuery
  formCreateUserRequest : List (String × String) → CreateUserRequest → Except String CreateUserRequest
  formUpdateUserRequest : List (String × String) → UpdateUserRequest → Except String UpdateUserRequest
  isEmail : String → Bool

/-- The values of the declared DTO types. -/
inductive Dto where
  | createUserRequest (r : CreateUserRequest)
  | getUsersQuery (q : GetUsersQuery)
  | updateUserRequest (r : UpdateUserRequest)
deriving DecidableEq, Repr

/-- The types passed to `BindAndCall` by the router, as `(*models.X)(nil)`. -/
inductive DtoType where
  | CreateUserRequest
  | GetUsersQuery
  | UpdateUserRequest
deriving DecidableEq, Repr

/-- Decoding followed by validation, the two steps of every gin binder. -/
def decodeThen {β : Type} (dec : Except String β) (validate : β → Except BindError β) :
    Except BindError β :=
  match dec with
  | .error e => .error (.other e)
  | .ok v => validate v

/-- The gin binders at the three DTO types. -/
def ginBinder (k : Codec) : Binder DtoType Dto where
  New
    | .CreateUserRequest => .createUserRequest { Name := "", Email := "", Age := 0, Phone := "" }
    | .GetUsersQuery => .getUsersQuery { Page := 0, PageSize := 0, Name := "", Email := "" }
    | .UpdateUserRequest =>
      .updateUserRequest { Name := none, Email := none, Age := none, Phone := none }
  ShouldBindQuery r
    | .createUserRequest p =>
      (decodeThen (k.formCreateUserRequest r.Query p)
        (validateCreateUserRequest k.isEmail)).map Dto.createUserRequest
    | .getUsersQuery p =>
      (decodeThen (mapFormGetUsersQuery k.quote r.Query p) validateGetUsersQuery).map
        Dto.getUsersQuery
    | .updateUserRequest p =>
      (decodeThen (k.formUpdateUserRequest r.Query p)
        (validateUpdateUserRequest k.isEmail)).map Dto.updateUserRequest
  ShouldBindJSON r
    | .createUserRequest p =>
      (decodeThen (k.jsonCreateUserRequest r.Body p)
        (validateCreateUserRequest k.isEmail)).map Dto.createUserRequest
    | .getUsersQuery p =>
      (decodeThen (k.jsonGetUsersQuery r.Body p) validateGetUsersQuery).map Dto.getUsersQuery
    | .updateUserRequest p =>
      (decodeThen (k.jsonUpdateUserRequest r.Body p)
        (validateUpdateUserRequest k.isEmail)).map Dto.updateUserRequest

/-! ## The store: the table `users` behind gorm

The database is a functioning SQLite store: the only errors it raises are
"record not found" and the violation of the unique index on `email`. -/

/-- The table `users` (rows in rowid order, soft-deleted rows included), the
AUTOINCREMENT counter and the reading of the clock. -/
structure DB where
  users : List User
  seq : Nat
  now : Nat
deriving DecidableEq, Repr

/-- The error `gorm.ErrRecordNotFound`. -/
def ErrRecordNotFound : String := "record not found"

/-- The error of the unique index declared by `gorm:"uniqueIndex"` on `Email`. -/
def ErrUniqueEmail : String := "UNIQUE constraint failed: users.email"

/-- The condition `deleted_at IS NULL` gorm adds to every read of a model with
a `gorm.DeletedAt` field. -/
def User.active (u : User) : Bool := u.DeletedAt.isNone

/-- The call `db.Create(user)` for a user whose primary key and stamps are
zero: the index on `email` spans every row, the id comes from the counter. -/
def DB.Create (db : DB) (user : User) : Except String (User × DB) :=
  if db.users.any (fun r => r.Email == user.Email) then .error ErrUniqueEmail
  else
    let u := { user with ID := db.seq + 1, CreatedAt := db.now, UpdatedAt := db.now }
    .ok (u, { db with users := db.users ++ [u], seq := db.seq + 1 })

/-- The call `db.First(&user, id)`. -/
def DB.First (db : DB) (id : Nat) : Except String User :=
  match db.users.find? (fun r => r.ID == id && r.active) with
  | some u => .ok u
  | none => .error ErrRecordNotFound

/-- A value stored in `map[string]any`. -/
inductive Any where
  | str (s : String)
  | int (i : Int)
deriving DecidableEq, Repr

/-- Assigns one entry of the updates map to its column. -/
def assignColumn (u : User) (kv : String × Any) : User :=
  match kv.2 with
  | .str v =>
    if kv.1 = "name" then { u with Name := v }
    else if kv.1 = "email" then { u with Email := v }
    else if kv.1 = "phone" then { u with Phone := v }
    else u
  | .int v => if kv.1 = "age" then { u with Age := v } else u

/-- The row (or model value) after `Updates(updates)`: the entries of the map
and the stamp `updated_at`. -/
def applyUpdates (now : Nat) (updates : List (String × Any)) (u : User) : User :=
  { (updates.foldl assignColumn u) with UpdatedAt := now }

/-- The call `db.Model(&user).Updates(updates)`: an UPDATE of the active row
whose primary key is `user.ID`; it fails when the new e-mail is held by another
row. Returns the model value with the same fields set. -/
def DB.Updates (db : DB) (user : User) (updates : List (String × Any)) :
    Except String (User × DB) :=
  let target := fun (r : User) => r.ID == user.ID && r.active
  let clash :=
    match updates.lookup "email" with
    | some (.str e) => db.users.any target && db.users.any (fun r => r.ID != user.ID && r.Email == e)
    | _ => false
  if clash then .error ErrUniqueEmail
  else
    .ok (applyUpdates db.now updates user,
         { db with users := db.users.map (fun r => if target r then applyUpdates db.now updates r else r) })

/-- The call `db.Delete(&models.User{}, id)`: a soft delete of the active row
with this primary key. -/
def DB.Delete (db : DB) (id : Nat) : Except String DB :=
  let stamp := fun (r : User) =>
    if r.ID == id && r.active then { r with DeletedAt := some db.now } else r
  .ok { db with users := db.users.map stamp }

/-- The columns the list query filters on. -/
inductive Column where
  | name
  | email
deriving DecidableEq, Repr

/-- The value of a column in a row. -/
def Column.of : Column → User → String
  | .name, u => u.Name
  | .email, u => u.Email

/-- The SQL operator `text LIKE pattern` of SQLite: `%` stands for any run of
characters, `_` for any one character, and any other character for itself,
ASCII letters compared without case. -/
def like : List Char → List Char → Bool
  | [], text => text.isEmpty
  | p :: ps, text =>
    if p = '%' then text.tails.any (like ps)
    else
      match text with
      | [] => false
      | t :: ts => (p = '_' || p.toLower == t.toLower) && like ps ts

/-- The statement a gorm chain builds: the `Where` conditions `col LIKE ?`
with their argument, and the `Offset` and `Limit` clauses. -/
structure Stmt where
  wheres : List (Column × String)
  offset : Int
  limit : Option Int
deriving DecidableEq, Repr

/-- The call `db.Model(&models.User{})`. -/
def DB.Model : Stmt := { wheres := [], offset := 0, limit := none }

/-- The call `query.Where("col LIKE ?", arg)`. -/
def Stmt.Where (q : Stmt) (col : Column) (arg : String) : Stmt :=
  { q with wheres := q.wheres ++ [(col, arg)] }

/-- The call `query.Offset(offset)`. -/
def Stmt.Offset (q : Stmt) (offset : Int) : Stmt := { q with offset := offset }

/-- The call `query.Limit(limit)`. -/
def Stmt.Limit (q : Stmt) (limit : Int) : Stmt := { q with limit := some limit }

/-- The rows the WHERE clause of a statement selects: active and matching every
`LIKE` condition. -/
def Stmt.selects (q : Stmt) (u : User) : Bool :=
  u.active && q.wheres.all (fun w => like w.2.toList (w.1.of u).toList)

/-- The call `query.Count(&total)`. -/
def Stmt.Count (q : Stmt) (db : DB) : Except String Int :=
  .ok ((db.users.filter q.selects).length : Int)

/-- The call `query.Find(&users)`: gorm writes `OFFSET` only when the offset is
positive and `LIMIT` when a limit of at least 0 is set. -/
def Stmt.Find (q : Stmt) (db : DB) : Except String (List User) :=
  let rows := db.users.filter q.selects
  let rows := if q.offset > 0 then rows.drop q.offset.toNat else rows
  match q.limit with
  | some l => .ok (if l ≥ 0 then rows.take l.toNat else rows)
  | none => .ok rows

/-- The value of a Go `int` (64 bits, two's complement) after an arithmetic
operation whose exact result is `x`. -/
def wrapInt64 (x : Int) : Int := (x + 2 ^ 63) % 2 ^ 64 - 2 ^ 63

/-! ## service/user.go

Every method takes the database and returns it with its result. -/

/-- The method `UserService.CreateUser`. -/
def UserService.CreateUser (db : DB) (req : CreateUserRequest) : Except String User × DB :=
  let user : User :=
    { ID := 0, CreatedAt := 0, UpdatedAt := 0, DeletedAt := none,
      Name := req.Name, Email := req.Email, Age := req.Age, Phone := req.Phone }
  match db.Create user with
  | .error err => (.error err, db)
  | .ok (user, db1) => (.ok user, db1)

/-- The method `UserService.GetUser`. -/
def UserService.GetUser (db : DB) (id : Nat) : Except String User :=
  match db.First id with
  | .error err => .error err
  | .ok user => .ok user

/-- The method `UserService.GetUsers`; the first component is `*req` as the
method leaves it (it overwrites `Page` and `PageSize` in place). -/
def UserService.GetUsers (db : DB) (req : GetUsersQuery) :
    GetUsersQuery × Except String (List User × Int) :=
  let query := DB.Model
  let query := if req.Name ≠ "" then query.Where .name ("%" ++ req.Name ++ "%") else query
  let query := if req.Email ≠ "" then query.Where .email ("%" ++ req.Email ++ "%") else query
  match query.Count db with
  | .error err => (req, .error err)
  | .ok total =>
    let req := if req.Page ≤ 0 then { req with Page := 1 } else req
    let req := if req.PageSize ≤ 0 then { req with PageSize := 10 } else req
    let offset := wrapInt64 (wrapInt64 (req.Page - 1) * req.PageSize)
    match ((query.Offset offset).Limit req.PageSize).Find db with
    | .error err => (req, .error err)
    | .ok users => (req, .ok (users, total))

/-- The map `updates` that `UserService.UpdateUser` builds from the request. -/
def UserService.updatesOf (req : UpdateUserRequest) : List (String × Any) :=
  let updates : List (String × Any) := []
  let updates := match req.Name with
    | some v => updates ++ [("name", Any.str v)]
    | none => updates
  let updates := match req.Email with
    | some v => updates ++ [("email", Any.str v)]
    | none => updates
  let updates := match req.Age with
    | some v => updates ++ [("age", Any.int v)]
    | none => updates
  let updates := match req.Phone with
    | some v => updates ++ [("phone", Any.str v)]
    | none => updates
  updates

/-- The method `UserService.UpdateUser`. -/
def UserService.UpdateUser (db : DB) (id : Nat) (req : UpdateUserRequest) :
    Except String User × DB :=
  match db.First id with
  | .error err => (.error err, db)
  | .ok user =>
    let updates := UserService.updatesOf req
    match db.Updates user updates with
    | .error err => (.error err, db)
    | .ok (user, db1) => (.ok user, db1)

/-- The method `UserService.DeleteUser`. -/
def UserService.DeleteUser (db : DB) (id : Nat) : Option String × DB :=
  match db.Delete id with
  | .error err => (some err, db)
  | .ok db1 => (none, db1)

/-! ## controller/user.go -/

/-- The values the controllers pass as `data`: a user, the map of the list
endpoint (`users`, `total`, `page`, `page_size`) and the map of the health
check. -/
inductive Payload where
  | user (u : User)
  | listing (users : List User) (total : Int) (page : Int) (page_size : Int)
  | health (status : String) (message : String)
deriving DecidableEq, Repr

/-- The context of the user routes: the controller reaches the database
through its service. -/
abbrev Ctx := Context Payload DB

/-- The method `UserController.CreateUser`. -/
def UserController.CreateUser (c : Ctx) (req : CreateUserRequest) : Ctx :=
  match UserService.CreateUser c.app req with
  | (.error err, db) => ErrorResponse { c with app := db } StatusInternalServerError err
  | (.ok user, db) => SuccessResponse { c with app := db } (some (.user user))

/-- The method `UserController.GetUser`. -/
def UserController.GetUser (c : Ctx) : Ctx :=
  match GetPathID c with
  | .error _ => ErrorResponse c StatusBadRequest "Invalid user ID"
  | .ok idStr =>
    match ParseUint idStr 32 with
    | .error _ => ErrorResponse c StatusBadRequest "Invalid user ID"
    | .ok id =>
      match UserService.GetUser c.app id with
      | .error err => ErrorResponse c StatusNotFound err
      | .ok user => SuccessResponse c (some (.user user))

/-- The method `UserController.GetUsers`; the response echoes `query` as the
service left it. -/
def UserController.GetUsers (c : Ctx) (query : GetUsersQuery) : Ctx :=
  match UserService.GetUsers c.app query with
  | (_, .error err) => ErrorResponse c StatusInternalServerError err
  | (query, .ok (users, total)) =>
    SuccessResponse c (some (.listing users total query.Page query.PageSize))

/-- The method `UserController.UpdateUser`. -/
def UserController.UpdateUser (c : Ctx) (req : UpdateUserRequest) : Ctx :=
  match GetPathID c with
  | .error _ => ErrorResponse c StatusBadRequest "Invalid user ID"
  | .ok idStr =>
    match ParseUint idStr 32 with
    | .error _ => ErrorResponse c StatusBadRequest "Invalid user ID"
    | .ok id =>
      match UserService.UpdateUser c.app id req with
      | (.error err, db) => ErrorResponse { c with app := db } StatusInternalServerError err
      | (.ok user, db) => SuccessResponse { c with app := db } (some (.user user))

/-- The method `UserController.DeleteUser`. -/
def UserController.DeleteUser (c : Ctx) : Ctx :=
  match GetPathID c with
  | .error _ => ErrorResponse c StatusBadRequest "Invalid user ID"
  | .ok idStr =>
    match ParseUint idStr 32 with
    | .error _ => ErrorResponse c StatusBadRequest "Invalid user ID"
    | .ok id =>
      match UserService.DeleteUser c.app id with
      | (some err, db) => ErrorResponse { c with app := db } StatusInternalServerError err
      | (none, db) => SuccessResponse { c with app := db } none

/-! ## router/router.go -/

/-- The panic of `reflect.Value.Call` on arguments that do not fit the
signature of the handler. -/
def reflectPanic (c : Ctx) : Ctx :=
  { c with panicked := some "reflect: Call with arguments that do not match the handler" }

/-- The dynamic call of `userController.CreateUser`. -/
def callCreateUser : Handler Dto Payload DB
  | [.context, .param (.createUserRequest req)], c => UserController.CreateUser c req
  | _, c => reflectPanic c

/-- The dynamic call of `userController.GetUsers`. -/
def callGetUsers : Handler Dto Payload DB
  | [.context, .param (.getUsersQuery query)], c => UserController.GetUsers c query
  | _, c => reflectPanic c

/-- The dynamic call of `userController.UpdateUser`. -/
def callUpdateUser : Handler Dto Payload DB
  | [.context, .param (.updateUserRequest req)], c => UserController.UpdateUser c req
  | _, c => reflectPanic c

/-- One registered route: method, full path and handler. -/
structure Route where
  method : String
  path : String
  handler : Ctx → Ctx

/-- The routes `New` registers (the swagger route, whose handler is outside
the repository, is left out). -/
def New (k : Codec) : List Route :=
  [ { method := "POST", path := "/api/v1/users",
      handler := BindAndCall (ginBinder k) callCreateUser [DtoType.CreateUserRequest] },
    { method := "GET", path := "/api/v1/users",
      handler := BindAndCall (ginBinder k) callGetUsers [DtoType.GetUsersQuery] },
    { method := "GET", path := "/api/v1/users/:id", handler := UserController.GetUser },
    { method := "PUT", path := "/api/v1/users/:id",
      handler := BindAndCall (ginBinder k) callUpdateUser [DtoType.UpdateUserRequest] },
    { method := "DELETE", path := "/api/v1/users/:id", handler := UserController.DeleteUser },
    { method := "GET", path := "/health",
      handler := fun c => SuccessResponse c (some (.health "healthy" "API is running")) } ]

/-- Serving a request the engine has matched to the route `fullPath` (with the
path parameters already in `c.Params`): the handler registered for the method
of the request and that path runs; `none` when there is no such route. -/
def serve (routes : List Route) (fullPath : String) (c : Ctx) : Option Ctx :=
  match routes.find? (fun r => r.method == c.Request.Method && r.path == fullPath) with
  | some r => some (r.handler c)
  | none => none

/-! ## Notions used to state the properties -/

/-- The five methods for which `BindAndCall` binds. -/
def bindsOn (m : String) : Prop :=
  m = "GET" ∨ m = "DELETE" ∨ m = "POST" ∨ m = "PUT" ∨ m = "PATCH"

instance (m : String) : Decidable (bindsOn m) := by
  unfold bindsOn; infer_instance

/-- The binding-source policy in the words of the specification: the query for
GET and DELETE; for POST, PUT and PATCH the JSON body for the first declared
DTO and the query for any later one. -/
def specPopulate {T D : Type} (g : Binder T D) (r : Request) (i : Nat) (t : T) :
    Except BindError D :=
  if r.Method = "GET" ∨ r.Method = "DELETE" then g.ShouldBindQuery r (g.New t)
  else if i = 0 then g.ShouldBindJSON r (g.New t)
  else g.ShouldBindQuery r (g.New t)

/-- Whether a log event reports a binding attempt. -/
def isBindingEvent (e : LogEvent) : Bool :=
  e.msg == "Binding query parameters" || e.msg == "Binding JSON body"

/-- Whether a log event reports the call of the handler. -/
def isCallingEvent (e : LogEvent) : Bool :=
  e.msg == "Calling handler with bound parameters"

/-! ## Sample values used by the worked instances -/

/-- A decoder given by a table from request bodies to decoded values. -/
def tableDecoder {β : Type} (table : List (String × β)) (body : String) (_ : β) : Except String β :=
  match table.lookup body with
  | some v => .ok v
  | none => .error "invalid character"

/-- A codec for worked instances: bodies are decoded by table, a text is an
e-mail address when it contains `@`. -/
def sampleCodec : Codec where
  quote := fun s => "\"" ++ s ++ "\""
  jsonCreateUserRequest := tableDecoder
    [("john", { Name := "John Doe", Email := "john@example.com", Age := 25, Phone := "1234567890" }),
     ("jane", { Name := "Jane Doe", Email := "invalid-email", Age := 30, Phone := "" }),
     ("noname", { Name := "", Email := "test@example.com", Age := 25, Phone := "" })]
  jsonUpdateUserRequest := tableDecoder
    [("rename", { Name := some "Updated Name", Email := none, Age := none, Phone := none })]
  jsonGetUsersQuery := tableDecoder []
  formCreateUserRequest := fun _ _ => .error "unsupported"
  formUpdateUserRequest := fun _ _ => .error "unsupported"
  isEmail := fun s => s.toList.contains '@'

/-- An empty database. -/
def emptyDB : DB := { users := [], seq := 0, now := 1000 }

/-- A fresh context for a request. -/
def freshCtx {α σ : Type} (r : Request) (params : List (String × String)) (app : σ) : Context α σ :=
  { Request := r, Params := params, Writer := [], bodyless := [], aborted := false, panicked := none,
    log := [], app := app }

/-- A sample row. -/
def sampleUser (id : Nat) (name email : String) : User :=
  { ID := id, CreatedAt := 1, UpdatedAt := 1, DeletedAt := none,
    Name := name, Email := email, Age := 25, Phone := "" }

/-- The row after an update, in the words of the specification: each of the
four request fields that is present replaces its column, an absent one leaves
the column as it is; the store stamps `updated_at`. -/
def specUpdated (now : Nat) (req : UpdateUserRequest) (r : User) : User :=
  { r with Name := req.Name.getD r.Name, Email := req.Email.getD r.Email,
           Age := req.Age.getD r.Age, Phone := req.Phone.getD r.Phone, UpdatedAt := now }

/-- The page number `GetUsers` works with: 1 in place of a non-positive value. -/
def effectivePage (req : GetUsersQuery) : Int := if req.Page ≤ 0 then 1 else req.Page

/-- The page size `GetUsers` works with: 10 in place of a non-positive value. -/
def effectivePageSize (req : GetUsersQuery) : Int := if req.PageSize ≤ 0 then 10 else req.PageSize

/-- The statement `GetUsers` has built when it counts. -/
def filterStmt (req : GetUsersQuery) : Stmt :=
  let query := DB.Model
  let query := if req.Name ≠ "" then query.Where .name ("%" ++ req.Name ++ "%") else query
  if req.Email ≠ "" then query.Where .email ("%" ++ req.Email ++ "%") else query

/-- The active users the filters of a list query select, in table order. -/
def matching (db : DB) (req : GetUsersQuery) : List User :=
  db.users.filter (filterStmt req).selects

/-- The offset `GetUsers` computes, in 64-bit arithmetic. -/
def offsetOf (req : GetUsersQuery) : Int :=
  wrapInt64 (wrapInt64 (effectivePage req - 1) * effectivePageSize req)

/-- The page `GetUsers` returns, given the matching users. -/
def pageOf (req : GetUsersQuery) (rows : List User) : List User :=
  (if offsetOf req > 0 then rows.drop (offsetOf req).toNat else rows).take
    (effectivePageSize req).toNat

/-- The filter of the specification: the text occurs in the field as a
substring, ASCII letters compared without case. -/
def containsFold (needle hay : String) : Bool :=
  decide ((needle.toList.map Char.toLower) <:+: (hay.toList.map Char.toLower))

/-- The number a run of decimal digits denotes, continuing from `n`. -/
def decimalValue (cs : List Char) (n : Nat) : Nat :=
  cs.foldl (fun acc ch => acc * 10 + (ch.toNat - '0'.toNat)) n

/-- A path segment in the words of the specification: a base-10 unsigned
integer that fits in 32 bits, that is a non-empty run of the digits 0..9 (no
sign, no other character) whose value is at most 4294967295. -/
def isUint32Text (s : String) : Prop :=
  s ≠ "" ∧ (∀ ch ∈ s.toList, '0' ≤ ch ∧ ch ≤ '9') ∧ decimalValue s.toList 0 ≤ 4294967295

instance (s : String) : Decidable (isUint32Text s) := by
  unfold isUint32Text; infer_instance

/-- The request context after the error response of a rejected path id. -/
def invalidID (c : Ctx) : Ctx :=
  Context.mk c.Request c.Params (c.Writer ++ [(400, Response.mk 400 "Invalid user ID" none)])
    c.bodyless c.aborted c.panicked c.log c.app

/-- A table with two users, for the worked instances. -/
def twoUsers : DB :=
  { users := [sampleUser 1 "Ann" "ann@example.com", sampleUser 2 "Bob" "bob@example.com"],
    seq := 2, now := 1000 }

/-! # Theorems -/

section Middleware

variable {T D α σ : Type}

theorem emit_emit (c : Context α σ) (a b : List LogEvent) :
    (c.emit a).emit b = c.emit (a ++ b) := by
  simp [Context.emit, List.append_assoc]

theorem emit_nil (c : Context α σ) : c.emit [] = c := by
  cases c; simp [Context.emit]

theorem JSON_sends (c : Context α σ) (code : Int) (obj : Response α)
    (hlo : 200 ≤ code) (hhi : code ≤ 999) (h204 : code ≠ 204) (h304 : code ≠ 304) :
    c.JSON code obj = { c with Writer := c.Writer ++ [(code, obj)] } := by
  have hb : bodyAllowedForStatus code = true := by
    unfold bodyAllowedForStatus
    rw [if_neg (by omega), if_neg h204, if_neg h304]
  have hpos : code > 0 := by omega
  have hrange : ¬ (code < 100 ∨ code > 999) := by omega
  simp only [Context.JSON, hb, if_pos hpos, if_neg hrange]
  simp

theorem ErrorResponse_400 (c : Context α σ) (message : String) :
    ErrorResponse c StatusBadRequest message
      = { c with Writer := c.Writer ++ [(400, Response.mk 400 message none)] } :=
  JSON_sends c 400 _ (by decide) (by decide) (by decide) (by decide)

theorem ErrorResponse_404 (c : Context α σ) (message : String) :
    ErrorResponse c StatusNotFound message
      = { c with Writer := c.Writer ++ [(404, Response.mk 404 message none)] } :=
  JSON_sends c 404 _ (by decide) (by decide) (by decide) (by decide)

theorem ErrorResponse_500 (c : Context α σ) (message : String) :
    ErrorResponse c StatusInternalServerError message
      = { c with Writer := c.Writer ++ [(500, Response.mk 500 message none)] } :=
  JSON_sends c 500 _ (by decide) (by decide) (by decide) (by decide)

theorem SuccessResponse_200 (c : Context α σ) (data : Option α) :
    SuccessResponse c data
      = { c with Writer := c.Writer ++ [(200, Response.mk 200 "success" data)] } :=
  JSON_sends c 200 _ (by decide) (by decide) (by decide) (by decide)

theorem bindParam_fst (g : Binder T D) (r : Request) (i : Nat) (t : T)
    (hm : bindsOn r.Method) : (bindParam g r i (g.New t)).1 = specPopulate g r i t := by
  unfold bindParam specPopulate
  by_cases h1 : r.Method = "GET" ∨ r.Method = "DELETE"
  · simp [h1]
  · have h2 : r.Method = "POST" ∨ r.Method = "PUT" ∨ r.Method = "PATCH" := by
      rcases hm with h | h | h | h | h
      · exact absurd (Or.inl h) h1
      · exact absurd (Or.inr h) h1
      · exact Or.inl h
      · exact Or.inr (Or.inl h)
      · exact Or.inr (Or.inr h)
    simp only [h1, h2, if_true, if_false]
    by_cases h3 : i = 0 <;> simp [h3]

theorem bindParam_snd (g : Binder T D) (r : Request) (i : Nat) (p : D)
    (hm : bindsOn r.Method) :
    ∃ e, (bindParam g r i p).2 = [e] ∧ isBindingEvent e = true ∧ isCallingEvent e = false := by
  unfold bindParam
  by_cases h1 : r.Method = "GET" ∨ r.Method = "DELETE"
  · refine ⟨bindingEvent r "query" "Binding query parameters", ?_, ?_, ?_⟩
    · simp [h1]
    · simp [isBindingEvent, bindingEvent]
    · simp [isCallingEvent, bindingEvent]
  · have h2 : r.Method = "POST" ∨ r.Method = "PUT" ∨ r.Method = "PATCH" := by
      rcases hm with h | h | h | h | h
      · exact absurd (Or.inl h) h1
      · exact absurd (Or.inr h) h1
      · exact Or.inl h
      · exact Or.inr (Or.inl h)
      · exact Or.inr (Or.inr h)
    by_cases h3 : i = 0
    · refine ⟨bindingEvent r "json" "Binding JSON body", ?_, ?_, ?_⟩
      · simp only [h1, h2, h3, if_true, if_false]
      · simp [isBindingEvent, bindingEvent]
      · simp [isCallingEvent, bindingEvent]
    · refine ⟨bindingEvent r "query" "Binding query parameters", ?_, ?_, ?_⟩
      · simp only [h1, h2, h3, if_true, if_false]
      · simp [isBindingEvent, bindingEvent]
      · simp [isCallingEvent, bindingEvent]

theorem bindsOn_of_error (g : Binder T D) (r : Request) (i : Nat) (p : D) (err : BindError)
    (h : (bindParam g r i p).1 = .error err) : bindsOn r.Method := by
  unfold bindParam at h
  by_cases h1 : r.Method = "GET" ∨ r.Method = "DELETE"
  · rcases h1 with h1 | h1
    · exact Or.inl h1
    · exact Or.inr (Or.inl h1)
  · by_cases h2 : r.Method = "POST" ∨ r.Method = "PUT" ∨ r.Method = "PATCH"
    · rcases h2 with h2 | h2 | h2
      · exact Or.inr (Or.inr (Or.inl h2))
      · exact Or.inr (Or.inr (Or.inr (Or.inl h2)))
      · exact Or.inr (Or.inr (Or.inr (Or.inr h2)))
    · simp [h1, h2] at h

theorem bindLoop_ok (g : Binder T D) (r : Request) (hm : bindsOn r.Method) :
    ∀ (bts : List T) (ds : List D) (i : Nat) (args : List (Value D)) (c : Context α σ),
      c.Request = r →
      List.Forall₂ (fun (p : Nat × T) d => specPopulate g r p.1 p.2 = .ok d)
        (bts.enumFrom i) ds →
      ∃ evs, bindLoop g i bts args c = .ok (args ++ ds.map Value.param, c.emit evs)
        ∧ evs.length = bts.length
        ∧ (∀ e ∈ evs, isBindingEvent e = true ∧ isCallingEvent e = false) := by
  intro bts
  induction bts with
  | nil =>
    intro ds i args c _ h
    cases h
    exact ⟨[], by simp [bindLoop, emit_nil], rfl, by simp⟩
  | cons t ts ih =>
    intro ds i args c hc h
    rw [List.enumFrom_cons] at h
    cases h with
    | cons h1 h2 =>
      rename_i d ds1
      simp only at h1
      obtain ⟨e, he, hb, hcall⟩ := bindParam_snd g r i (g.New t) hm
      have hf := bindParam_fst g r i t hm
      obtain ⟨evs, hl, hlen, hall⟩ :=
        ih ds1 (i + 1) (args ++ [Value.param d]) (c.emit [e]) (by simp [Context.emit, hc]) h2
      refine ⟨e :: evs, ?_, by simp [hlen], ?_⟩
      · simp only [bindLoop, hc, hf, h1, he, hl, emit_emit]
        simp
      · intro x hx
        rcases List.mem_cons.mp hx with hx | hx
        · subst hx; exact ⟨hb, hcall⟩
        · exact hall x hx

theorem bindLoop_fail (g : Binder T D) (r : Request) :
    ∀ (pre : List T) (bt : T) (i : Nat) (c : Context α σ) (err : BindError),
      c.Request = r →
      (∀ p ∈ pre.enumFrom i, ∃ v, (bindParam g r p.1 (g.New p.2)).1 = .ok v) →
      (bindParam g r (i + pre.length) (g.New bt)).1 = .error err →
      ∃ evs, (∀ (post : List T) (args : List (Value D)),
          bindLoop g i (pre ++ bt :: post) args c
            = .error (ErrorResponse (c.emit (evs ++ [bindFailedEvent r err]))
                StatusBadRequest err.Error).Abort)
        ∧ evs.length = pre.length + 1
        ∧ (∀ e ∈ evs, isBindingEvent e = true ∧ isCallingEvent e = false) := by
  intro pre
  induction pre with
  | nil =>
    intro bt i c err hc _ hfail
    have hm := bindsOn_of_error g r _ _ err hfail
    obtain ⟨e, he, hb, hcall⟩ := bindParam_snd g r i (g.New bt) hm
    simp only [List.length_nil, Nat.add_zero] at hfail
    refine ⟨[e], ?_, rfl, ?_⟩
    · intro post args
      simp only [List.nil_append, bindLoop, hc, hfail, he, emit_emit]
      cases err <;> simp
    · intro x hx
      rw [List.mem_singleton.mp hx]
      exact ⟨hb, hcall⟩
  | cons t ts ih =>
    intro bt i c err hc hpre hfail
    have hm := bindsOn_of_error g r _ _ err hfail
    obtain ⟨e, he, hb, hcall⟩ := bindParam_snd g r i (g.New t) hm
    rw [List.enumFrom_cons] at hpre
    obtain ⟨v, hv⟩ := hpre (i, t) (List.mem_cons_self _ _)
    simp only at hv
    have hfail1 : (bindParam g r (i + 1 + ts.length) (g.New bt)).1 = .error err := by
      have : i + 1 + ts.length = i + (t :: ts).length := by simp; omega
      rw [this]; exact hfail
    obtain ⟨evs, hl, hlen, hall⟩ :=
      ih bt (i + 1) (c.emit [e]) err (by simp [Context.emit, hc])
        (fun p hp => hpre p (List.mem_cons_of_mem _ hp)) hfail1
    refine ⟨e :: evs, ?_, by simp [hlen], ?_⟩
    · intro post args
      rw [List.cons_append, bindLoop]
      simp only [hc, hv, he]
      rw [hl, emit_emit]
      simp
    · intro x hx
      rcases List.mem_cons.mp hx with hx | hx
      · subst hx; exact ⟨hb, hcall⟩
      · exact hall x hx

theorem filter_length_of_all {β : Type} (p : β → Bool) (l : List β) (h : ∀ e ∈ l, p e = true) :
    (l.filter p).length = l.length := by
  rw [List.filter_eq_self.mpr h]

theorem filter_length_of_none {β : Type} (p : β → Bool) (l : List β) (h : ∀ e ∈ l, p e = false) :
    (l.filter p).length = 0 := by
  rw [List.filter_eq_nil_iff.mpr (fun e he => by simp [h e he])]
  rfl

/-- The early return of `BindAndCall`: the context the middleware leaves behind
when a binding fails after `pre.length` successful ones, whatever the handler
and the types declared after the failing one. -/
theorem BindAndCall_fail (g : Binder T D) (pre : List T) (bt : T) (c : Context α σ)
    (err : BindError)
    (hpre : ∀ p ∈ pre.enum, ∃ v, (bindParam g c.Request p.1 (g.New p.2)).1 = .ok v)
    (hfail : (bindParam g c.Request pre.length (g.New bt)).1 = .error err) :
    ∃ evs : List LogEvent,
      (∀ (handler : Handler D α σ) (post : List T),
        BindAndCall g handler (pre ++ bt :: post) c
          = (ErrorResponse (c.emit (evs ++ [bindFailedEvent c.Request err]))
              StatusBadRequest err.Error).Abort)
      ∧ evs.length = pre.length + 1
      ∧ (∀ e ∈ evs, isBindingEvent e = true ∧ isCallingEvent e = false) := by
  have hfail0 : (bindParam g c.Request (0 + pre.length) (g.New bt)).1 = .error err := by
    simpa using hfail
  obtain ⟨evs, hl, hlen, hall⟩ :=
    bindLoop_fail g c.Request pre bt 0 c err rfl hpre hfail0
  refine ⟨evs, ?_, hlen, hall⟩
  intro handler post
  simp only [BindAndCall, hl]

/-- C1: when the bindings of the DTOs before the one at index `pre.length`
succeed and the binding (or validation) of that one returns `err`, the
middleware writes exactly the error envelope with status 400, code 400 and
message `err.Error()`, sets the abort flag, leaves the handler state alone,
logs no handler call, makes `pre.length + 1` binding attempts and no more, and
its result depends neither on the handler nor on the DTO types declared after
the failing one. -/
theorem BindAndCall_binding_error (g : Binder T D) (handler : Handler D α σ)
    (pre : List T) (bt : T) (post : List T) (c : Context α σ) (err : BindError)
    (hpre : ∀ p ∈ pre.enum, ∃ v, (bindParam g c.Request p.1 (g.New p.2)).1 = .ok v)
    (hfail : (bindParam g c.Request pre.length (g.New bt)).1 = .error err) :
    (BindAndCall g handler (pre ++ bt :: post) c).Writer
        = c.Writer ++ [(400, { Code := 400, Message := err.Error, Data := none })]
      ∧ (BindAndCall g handler (pre ++ bt :: post) c).aborted = true
      ∧ (BindAndCall g handler (pre ++ bt :: post) c).app = c.app
      ∧ (BindAndCall g handler (pre ++ bt :: post) c).panicked = c.panicked
      ∧ ((BindAndCall g handler (pre ++ bt :: post) c).log.filter isCallingEvent).length
          = (c.log.filter isCallingEvent).length
      ∧ ((BindAndCall g handler (pre ++ bt :: post) c).log.filter isBindingEvent).length
          = (c.log.filter isBindingEvent).length + pre.length + 1
      ∧ ∀ (handler2 : Handler D α σ) (post2 : List T),
          BindAndCall g handler2 (pre ++ bt :: post2) c
            = BindAndCall g handler (pre ++ bt :: post) c := by
  obtain ⟨evs, hres, hlen, hall⟩ := BindAndCall_fail g pre bt c err hpre hfail
  have hcallF : isCallingEvent (bindFailedEvent c.Request err) = false := by
    simp [isCallingEvent, bindFailedEvent]
  have hbindF : isBindingEvent (bindFailedEvent c.Request err) = false := by
    simp [isBindingEvent, bindFailedEvent]
  have hnc : (evs.filter isCallingEvent).length = 0 :=
    filter_length_of_none _ _ (fun e he => (hall e he).2)
  have hnb : (evs.filter isBindingEvent).length = evs.length :=
    filter_length_of_all _ _ (fun e he => (hall e he).1)
  refine ⟨?_, ?_, ?_, ?_, ?_, ?_, ?_⟩
  · rw [hres]; simp [ErrorResponse_400, Context.Abort, Context.emit]
  · rw [hres]; simp [ErrorResponse_400, Context.Abort, Context.emit]
  · rw [hres]; simp [ErrorResponse_400, Context.Abort, Context.emit]
  · rw [hres]; simp [ErrorResponse_400, Context.Abort, Context.emit]
  · rw [hres]
    simp only [ErrorResponse_400, Context.Abort, Context.emit, List.filter_append,
      List.length_append, hnc]
    simp [List.filter, hcallF]
  · rw [hres]
    simp only [ErrorResponse_400, Context.Abort, Context.emit, List.filter_append,
      List.length_append, hnb, hlen]
    simp [List.filter, hbindF]
    omega
  · intro h2 post2
    rw [hres h2 post2, hres handler post]

/-- C1, worked instance: a POST whose body decodes to an invalid e-mail
address is answered with the 400 envelope and aborted. -/
theorem BindAndCall_binding_error_witness :
    (bindParam (ginBinder sampleCodec) (Request.mk "POST" "/api/v1/users" [] "jane") 0
        ((ginBinder sampleCodec).New DtoType.CreateUserRequest)).1
      = .error (.validation (fieldError "CreateUserRequest" "Email" "email"))
    ∧ (BindAndCall (ginBinder sampleCodec) callCreateUser ([] ++ DtoType.CreateUserRequest :: [])
        (freshCtx (Request.mk "POST" "/api/v1/users" [] "jane") [] emptyDB)).Writer
      = [] ++ [(400, Response.mk 400
          (BindError.validation (fieldError "CreateUserRequest" "Email" "email")).Error none)]
    ∧ (BindAndCall (ginBinder sampleCodec) callCreateUser ([] ++ DtoType.CreateUserRequest :: [])
        (freshCtx (Request.mk "POST" "/api/v1/users" [] "jane") [] emptyDB)).aborted = true :=
  have h := BindAndCall_binding_error (ginBinder sampleCodec) callCreateUser []
    DtoType.CreateUserRequest [] (freshCtx (Request.mk "POST" "/api/v1/users" [] "jane") [] emptyDB)
    (.validation (fieldError "CreateUserRequest" "Email" "email"))
    (by simp) rfl
  ⟨rfl, h.1, h.2.1⟩

/-- The normal exit of `BindAndCall`: the handler call the middleware makes when
every binding succeeds. -/
theorem BindAndCall_ok (g : Binder T D) (bts : List T) (ds : List D)
    (c : Context α σ) (hm : bindsOn c.Request.Method)
    (hb : List.Forall₂ (fun (p : Nat × T) d => specPopulate g c.Request p.1 p.2 = .ok d)
      bts.enum ds) :
    ∃ evs : List LogEvent,
      evs.length = bts.length
      ∧ (∀ e ∈ evs, isBindingEvent e = true ∧ isCallingEvent e = false)
      ∧ ∀ handler : Handler D α σ,
          BindAndCall g handler bts c
            = handler (Value.context :: ds.map Value.param)
                (c.emit (evs ++ [callingEvent c.Request])) := by
  obtain ⟨evs, hl, hlen, hall⟩ :=
    bindLoop_ok g c.Request hm bts ds 0 [Value.context] c rfl hb
  refine ⟨evs, hlen, hall, ?_⟩
  intro handler
  simp only [BindAndCall, hl, emit_emit]
  simp

/-- C2: when the method is one of GET, DELETE, POST, PUT, PATCH and every
declared DTO binds (from the query for GET and DELETE; for POST, PUT and PATCH
from the JSON body at index 0 and from the query at a later index) to the value
`ds[i]`, then for every handler the middleware is one application of the
handler to the argument list `[context, ds[0], ..., ds[n-1]]`, in a context
that differs from the incoming one only by the log: one binding event per
declared DTO and then exactly one handler-call event. -/
theorem BindAndCall_invokes_handler (g : Binder T D) (bts : List T) (ds : List D)
    (c : Context α σ) (hm : bindsOn c.Request.Method)
    (hb : List.Forall₂ (fun (p : Nat × T) d => specPopulate g c.Request p.1 p.2 = .ok d)
      bts.enum ds) :
    ∃ evs : List LogEvent,
      evs.length = bts.length
      ∧ (∀ e ∈ evs, isBindingEvent e = true)
      ∧ ((c.emit (evs ++ [callingEvent c.Request])).log.filter isCallingEvent).length
          = (c.log.filter isCallingEvent).length + 1
      ∧ ∀ handler : Handler D α σ,
          BindAndCall g handler bts c
            = handler (Value.context :: ds.map Value.param)
                (c.emit (evs ++ [callingEvent c.Request])) := by
  obtain ⟨evs, hlen, hall, hcall⟩ := BindAndCall_ok g bts ds c hm hb
  have hnc : (evs.filter isCallingEvent).length = 0 :=
    filter_length_of_none _ _ (fun e he => (hall e he).2)
  refine ⟨evs, hlen, fun e he => (hall e he).1, ?_, hcall⟩
  simp only [Context.emit, List.filter_append, List.length_append, hnc]
  simp [List.filter, isCallingEvent, callingEvent]

/-- C2, worked instance: a POST whose body decodes to a valid request runs the
handler once on the context and the decoded DTO. -/
theorem BindAndCall_invokes_handler_witness :
    bindsOn "POST"
    ∧ ∃ evs : List LogEvent,
      evs.length = [DtoType.CreateUserRequest].length
      ∧ (∀ e ∈ evs, isBindingEvent e = true)
      ∧ (((freshCtx (Request.mk "POST" "/api/v1/users" [] "john") [] emptyDB :
              Context Payload DB).emit
            (evs ++ [callingEvent (Request.mk "POST" "/api/v1/users" [] "john")])).log.filter
          isCallingEvent).length
          = ((freshCtx (Request.mk "POST" "/api/v1/users" [] "john") [] emptyDB :
              Context Payload DB).log.filter isCallingEvent).length + 1
      ∧ ∀ handler : Handler Dto Payload DB,
          BindAndCall (ginBinder sampleCodec) handler [DtoType.CreateUserRequest]
              (freshCtx (Request.mk "POST" "/api/v1/users" [] "john") [] emptyDB)
            = handler (Value.context ::
                [Dto.createUserRequest
                  { Name := "John Doe", Email := "john@example.com", Age := 25,
                    Phone := "1234567890" }].map Value.param)
                ((freshCtx (Request.mk "POST" "/api/v1/users" [] "john") [] emptyDB).emit
                  (evs ++ [callingEvent (Request.mk "POST" "/api/v1/users" [] "john")])) :=
  ⟨by decide,
   BindAndCall_invokes_handler (ginBinder sampleCodec) [DtoType.CreateUserRequest]
    [Dto.createUserRequest
      { Name := "John Doe", Email := "john@example.com", Age := 25, Phone := "1234567890" }]
    (freshCtx (Request.mk "POST" "/api/v1/users" [] "john") [] emptyDB)
    (by decide) (List.Forall₂.cons rfl List.Forall₂.nil)⟩

end Middleware

section Users

theorem minMax_some_of_out (lo hi v : Int) (h : v < lo ∨ v > hi) : ∃ tag, minMax lo hi v = some tag := by
  unfold minMax
  by_cases h1 : v < lo
  · exact ⟨"min", by simp [h1]⟩
  · have h2 : v > hi := by
      rcases h with h | h
      · exact absurd h h1
      · exact h
    exact ⟨"max", by simp [h1, h2]⟩

theorem validateCreateUserRequest_rejects (isEmail : String → Bool) (req : CreateUserRequest)
    (h : req.Name = "" ∨ req.Email = "" ∨ isEmail req.Email = false ∨ req.Age < 1 ∨ req.Age > 150) :
    ∃ text, validateCreateUserRequest isEmail req = .error (.validation text) := by
  unfold validateCreateUserRequest validated
  refine ⟨_, if_neg ?_⟩
  rcases h with h | h | h | h | h
  · simp [h]
  · simp [h]
  · by_cases he : req.Email = "" <;> simp [h, he]
  · obtain ⟨tag, ht⟩ := minMax_some_of_out 1 150 req.Age (Or.inl h)
    simp [ht]
  · obtain ⟨tag, ht⟩ := minMax_some_of_out 1 150 req.Age (Or.inr h)
    simp [ht]

theorem serve_POST_users (k : Codec) (c : Ctx) (hM : c.Request.Method = "POST") :
    serve (New k) "/api/v1/users" c
      = some (BindAndCall (ginBinder k) callCreateUser [DtoType.CreateUserRequest] c) := by
  simp [serve, New, List.find?, hM]

/-- C3: when the request is a POST whose body binds and validates to `req`
and the store accepts the row (its `Create` returns the row `u` and the
database `db1`), the route POST /api/v1/users writes exactly one response, of
status 200, with the envelope (200, "success", `u`); `u` is the row appended to
the table, it carries the submitted name, e-mail, age and phone, and its id is
the one the store generated (the next value of its counter). -/
theorem POST_users_creates (k : Codec) (c : Ctx) (req : CreateUserRequest) (u : User) (db1 : DB)
    (hM : c.Request.Method = "POST")
    (hbind : (ginBinder k).ShouldBindJSON c.Request ((ginBinder k).New DtoType.CreateUserRequest)
      = .ok (Dto.createUserRequest req))
    (hacc : c.app.Create (User.mk 0 0 0 none req.Name req.Email req.Age req.Phone) = .ok (u, db1)) :
    ∃ c1, serve (New k) "/api/v1/users" c = some c1
      ∧ c1.Writer = c.Writer ++ [(200, { Code := 200, Message := "success", Data := some (.user u) })]
      ∧ c1.aborted = c.aborted
      ∧ c1.app = db1
      ∧ db1.users = c.app.users ++ [u]
      ∧ u.Name = req.Name ∧ u.Email = req.Email ∧ u.Age = req.Age ∧ u.Phone = req.Phone
      ∧ u.ID = c.app.seq + 1 ∧ db1.seq = u.ID := by
  have hm : bindsOn c.Request.Method := by rw [hM]; decide
  have hs : specPopulate (ginBinder k) c.Request 0 DtoType.CreateUserRequest
      = .ok (Dto.createUserRequest req) := by
    unfold specPopulate
    rw [if_neg (by rw [hM]; decide), if_pos rfl]
    exact hbind
  obtain ⟨evs, _, _, hcall⟩ :=
    BindAndCall_ok (ginBinder k) [DtoType.CreateUserRequest]
      [Dto.createUserRequest req] c hm (List.Forall₂.cons hs List.Forall₂.nil)
  have hrow : u = User.mk (c.app.seq + 1) c.app.now c.app.now none req.Name req.Email req.Age
        req.Phone
      ∧ db1 = { c.app with users := c.app.users ++ [u], seq := c.app.seq + 1 } := by
    unfold DB.Create at hacc
    split at hacc
    · cases hacc
    · simp only [Except.ok.injEq, Prod.mk.injEq] at hacc
      obtain ⟨h1, h2⟩ := hacc
      subst h1
      exact ⟨rfl, h2.symm⟩
  refine ⟨_, serve_POST_users k c hM, ?_⟩
  rw [hcall callCreateUser]
  have hsvc : UserService.CreateUser c.app req = (.ok u, db1) := by
    simp only [UserService.CreateUser, hacc]
  obtain ⟨hu, hdb⟩ := hrow
  refine ⟨?_, ?_, ?_, ?_, ?_, ?_, ?_, ?_, ?_, ?_⟩
  · simp [callCreateUser, UserController.CreateUser, Context.emit, hsvc, SuccessResponse_200]
  · simp [callCreateUser, UserController.CreateUser, Context.emit, hsvc, SuccessResponse_200]
  · simp [callCreateUser, UserController.CreateUser, Context.emit, hsvc, SuccessResponse_200]
  · rw [hdb]
  · rw [hu]
  · rw [hu]
  · rw [hu]
  · rw [hu]
  · rw [hu]
  · rw [hdb, hu]

/-- C3, worked instance: the valid request of the test suite on an empty
database. -/
theorem POST_users_creates_witness :
    (freshCtx (Request.mk "POST" "/api/v1/users" [] "john") [] emptyDB : Ctx).Request.Method = "POST"
    ∧ ∃ c1, serve (New sampleCodec) "/api/v1/users"
          (freshCtx (Request.mk "POST" "/api/v1/users" [] "john") [] emptyDB) = some c1
      ∧ c1.Writer = [] ++ [(200, Response.mk 200 "success"
            (some (.user (User.mk 1 1000 1000 none "John Doe" "john@example.com" 25
              "1234567890"))))]
      ∧ c1.aborted = false
      ∧ c1.app = DB.mk [User.mk 1 1000 1000 none "John Doe" "john@example.com" 25 "1234567890"] 1 1000
      ∧ (DB.mk [User.mk 1 1000 1000 none "John Doe" "john@example.com" 25 "1234567890"] 1 1000).users
          = emptyDB.users
            ++ [User.mk 1 1000 1000 none "John Doe" "john@example.com" 25 "1234567890"]
      ∧ (User.mk 1 1000 1000 none "John Doe" "john@example.com" 25 "1234567890").Name
          = (CreateUserRequest.mk "John Doe" "john@example.com" 25 "1234567890").Name
      ∧ (User.mk 1 1000 1000 none "John Doe" "john@example.com" 25 "1234567890").Email
          = (CreateUserRequest.mk "John Doe" "john@example.com" 25 "1234567890").Email
      ∧ (User.mk 1 1000 1000 none "John Doe" "john@example.com" 25 "1234567890").Age
          = (CreateUserRequest.mk "John Doe" "john@example.com" 25 "1234567890").Age
      ∧ (User.mk 1 1000 1000 none "John Doe" "john@example.com" 25 "1234567890").Phone
          = (CreateUserRequest.mk "John Doe" "john@example.com" 25 "1234567890").Phone
      ∧ (User.mk 1 1000 1000 none "John Doe" "john@example.com" 25 "1234567890").ID
          = emptyDB.seq + 1
      ∧ (DB.mk [User.mk 1 1000 1000 none "John Doe" "john@example.com" 25 "1234567890"] 1 1000).seq
          = (User.mk 1 1000 1000 none "John Doe" "john@example.com" 25 "1234567890").ID :=
  ⟨rfl,
   POST_users_creates sampleCodec (freshCtx (Request.mk "POST" "/api/v1/users" [] "john") [] emptyDB)
    (CreateUserRequest.mk "John Doe" "john@example.com" 25 "1234567890")
    (User.mk 1 1000 1000 none "John Doe" "john@example.com" 25 "1234567890")
    (DB.mk [User.mk 1 1000 1000 none "John Doe" "john@example.com" 25 "1234567890"] 1 1000)
    rfl rfl rfl⟩

/-- C4: when the request is a POST whose body decodes to a request with an
empty name, an empty or syntactically invalid e-mail address, or an age outside
1..150, the route POST /api/v1/users writes exactly one response, of status 400
with code 400, aborts, leaves the database as it was (no row is persisted),
logs no handler call, and its result would be the same with any handler in
place of `CreateUser`. -/
theorem POST_users_rejects_invalid (k : Codec) (c : Ctx) (req : CreateUserRequest)
    (hM : c.Request.Method = "POST")
    (hdec : k.jsonCreateUserRequest c.Request.Body { Name := "", Email := "", Age := 0, Phone := "" }
      = .ok req)
    (hbad : req.Name = "" ∨ req.Email = "" ∨ k.isEmail req.Email = false
      ∨ req.Age < 1 ∨ req.Age > 150) :
    ∃ c1 text, serve (New k) "/api/v1/users" c = some c1
      ∧ c1.Writer = c.Writer ++ [(400, { Code := 400, Message := text, Data := none })]
      ∧ c1.aborted = true
      ∧ c1.app = c.app
      ∧ (c1.log.filter isCallingEvent).length = (c.log.filter isCallingEvent).length
      ∧ ∀ handler : Handler Dto Payload DB,
          BindAndCall (ginBinder k) handler [DtoType.CreateUserRequest] c = c1 := by
  obtain ⟨text, hv⟩ := validateCreateUserRequest_rejects k.isEmail req hbad
  have hfail : (bindParam (ginBinder k) c.Request 0
      ((ginBinder k).New DtoType.CreateUserRequest)).1 = .error (.validation text) := by
    unfold bindParam
    rw [if_neg (by rw [hM]; decide), if_pos (by rw [hM]; decide), if_pos rfl]
    simp only [ginBinder, decodeThen, hdec, hv]
    rfl
  obtain ⟨evs, hres, _, hall⟩ := BindAndCall_fail (ginBinder k) [] DtoType.CreateUserRequest
    c (.validation text) (by simp) hfail
  have hnc : (evs.filter isCallingEvent).length = 0 :=
    filter_length_of_none _ _ (fun e he => (hall e he).2)
  have h0 := hres callCreateUser []
  simp only [List.nil_append] at h0 hres
  refine ⟨_, text, serve_POST_users k c hM, ?_, ?_, ?_, ?_, ?_⟩
  · rw [h0]
    simp [ErrorResponse_400, Context.Abort, Context.emit, BindError.Error]
  · rw [h0]; simp [ErrorResponse_400, Context.Abort, Context.emit]
  · rw [h0]; simp [ErrorResponse_400, Context.Abort, Context.emit]
  · rw [h0]
    simp only [ErrorResponse_400, Context.Abort, Context.emit, List.filter_append,
      List.length_append, hnc]
    simp [List.filter, isCallingEvent, bindFailedEvent]
  · intro handler
    rw [h0]
    exact hres handler []

/-- C4, worked instance: the request of the test suite with an invalid e-mail
address. -/
theorem POST_users_rejects_invalid_witness :
    (freshCtx (Request.mk "POST" "/api/v1/users" [] "jane") [] emptyDB : Ctx).Request.Method = "POST"
    ∧ sampleCodec.isEmail (CreateUserRequest.mk "Jane Doe" "invalid-email" 30 "").Email = false
    ∧ ∃ c1 text, serve (New sampleCodec) "/api/v1/users"
          (freshCtx (Request.mk "POST" "/api/v1/users" [] "jane") [] emptyDB) = some c1
      ∧ c1.Writer = [] ++ [(400, { Code := 400, Message := text, Data := none })]
      ∧ c1.aborted = true
      ∧ c1.app = emptyDB
      ∧ (c1.log.filter isCallingEvent).length = (([] : List LogEvent).filter isCallingEvent).length
      ∧ ∀ handler : Handler Dto Payload DB,
          BindAndCall (ginBinder sampleCodec) handler [DtoType.CreateUserRequest]
            (freshCtx (Request.mk "POST" "/api/v1/users" [] "jane") [] emptyDB) = c1 :=
  ⟨rfl, rfl,
   POST_users_rejects_invalid sampleCodec
    (freshCtx (Request.mk "POST" "/api/v1/users" [] "jane") [] emptyDB)
    (CreateUserRequest.mk "Jane Doe" "invalid-email" 30 "") rfl rfl (Or.inr (Or.inr (Or.inl rfl)))⟩

theorem serve_GET_user (k : Codec) (c : Ctx) (hM : c.Request.Method = "GET") :
    serve (New k) "/api/v1/users/:id" c = some (UserController.GetUser c) := by
  simp [serve, New, List.find?, hM]

theorem serve_DELETE_user (k : Codec) (c : Ctx) (hM : c.Request.Method = "DELETE") :
    serve (New k) "/api/v1/users/:id" c = some (UserController.DeleteUser c) := by
  simp [serve, New, List.find?, hM]

theorem ParseUint_ne_empty (s : String) (bitSize id : Nat) (h : ParseUint s bitSize = .ok id) :
    s ≠ "" := by
  intro hs
  simp [ParseUint, hs] at h

theorem GetPathID_ok {α σ : Type} (c : Context α σ) (s : String)
    (hP : c.Params.lookup "id" = some s) (hs : s ≠ "") : GetPathID c = .ok s := by
  simp [GetPathID, BindPathParam, hP, hs]

theorem First_not_found (db : DB) (id : Nat)
    (h : ∀ r ∈ db.users, r.ID = id → r.active = false) : db.First id = .error ErrRecordNotFound := by
  have hnone : db.users.find? (fun r => r.ID == id && r.active) = none := by
    rw [List.find?_eq_none]
    intro r hr
    by_cases hid : r.ID = id
    · simp [hid, h r hr hid]
    · simp [hid]
  simp [DB.First, hnone]

theorem Delete_no_active (db db1 : DB) (id : Nat) (h : db.Delete id = .ok db1) :
    ∀ r ∈ db1.users, r.ID = id → r.active = false := by
  simp only [DB.Delete, Except.ok.injEq] at h
  subst h
  intro r hr hid
  simp only [List.mem_map] at hr
  obtain ⟨r0, _, hr0⟩ := hr
  by_cases hc : (r0.ID == id && r0.active) = true
  · rw [if_pos hc] at hr0
    subst hr0
    simp [User.active]
  · rw [if_neg hc] at hr0
    subst hr0
    simp only [Bool.and_eq_true, beq_iff_eq, not_and, Bool.not_eq_true] at hc
    exact hc hid

/-- C6: for a GET on /api/v1/users/{id} whose id segment is a well-formed id
(`ParseUint` accepts it), if the table holds no active row with that id the
route writes exactly one response: status 404 with the envelope (404, the
store's not-found message, no data), so never a 200 envelope, and it changes
nothing else. That is the case in particular in the database a DELETE of the
same id has just left. -/
theorem GET_user_not_found (k : Codec) (c : Ctx) (idStr : String) (id : Nat)
    (hM : c.Request.Method = "GET") (hP : c.Params.lookup "id" = some idStr)
    (hid : ParseUint idStr 32 = .ok id) :
    ((∀ r ∈ c.app.users, r.ID = id → r.active = false) →
        serve (New k) "/api/v1/users/:id" c
          = some { c with Writer := c.Writer ++ [(404, Response.mk 404 ErrRecordNotFound none)] })
    ∧ (∀ c0 c1 : Ctx, c0.Request.Method = "DELETE" → c0.Params.lookup "id" = some idStr →
        serve (New k) "/api/v1/users/:id" c0 = some c1 → c.app = c1.app →
        serve (New k) "/api/v1/users/:id" c
          = some { c with Writer := c.Writer ++ [(404, Response.mk 404 ErrRecordNotFound none)] }) := by
  have hne := ParseUint_ne_empty idStr 32 id hid
  have hget : (∀ r ∈ c.app.users, r.ID = id → r.active = false) →
      serve (New k) "/api/v1/users/:id" c
        = some { c with Writer := c.Writer ++ [(404, Response.mk 404 ErrRecordNotFound none)] } := by
    intro hno
    rw [serve_GET_user k c hM]
    simp [UserController.GetUser, GetPathID_ok c idStr hP hne, hid, UserService.GetUser,
      First_not_found c.app id hno, ErrorResponse_404]
  refine ⟨hget, ?_⟩
  intro c0 c1 hM0 hP0 hdel happ
  apply hget
  rw [serve_DELETE_user k c0 hM0] at hdel
  simp only [UserController.DeleteUser, GetPathID_ok c0 idStr hP0 hne, hid, UserService.DeleteUser,
    Option.some.injEq] at hdel
  rw [happ, ← hdel]
  exact Delete_no_active c0.app _ id rfl

/-- C6, worked instance: id 1 on an empty database, and id 2 in the table a
DELETE of id 2 has left. -/
theorem GET_user_not_found_witness :
    ParseUint "1" 32 = .ok 1
    ∧ serve (New sampleCodec) "/api/v1/users/:id"
        (freshCtx (Request.mk "GET" "/api/v1/users/1" [] "") [("id", "1")] emptyDB)
      = some (Context.mk (Request.mk "GET" "/api/v1/users/1" [] "") [("id", "1")]
          ([] ++ [(404, Response.mk 404 ErrRecordNotFound none)]) [] false none [] emptyDB)
    ∧ ParseUint "2" 32 = .ok 2
    ∧ serve (New sampleCodec) "/api/v1/users/:id"
        (freshCtx (Request.mk "GET" "/api/v1/users/2" [] "") [("id", "2")]
          (UserController.DeleteUser
            (freshCtx (Request.mk "DELETE" "/api/v1/users/2" [] "") [("id", "2")] twoUsers)).app)
      = some (Context.mk (Request.mk "GET" "/api/v1/users/2" [] "") [("id", "2")]
          ([] ++ [(404, Response.mk 404 ErrRecordNotFound none)]) [] false none []
          (UserController.DeleteUser
            (freshCtx (Request.mk "DELETE" "/api/v1/users/2" [] "") [("id", "2")] twoUsers)).app) :=
  ⟨rfl,
   (GET_user_not_found sampleCodec
      (freshCtx (Request.mk "GET" "/api/v1/users/1" [] "") [("id", "1")] emptyDB) "1" 1
      rfl rfl rfl).1 (by simp [emptyDB, freshCtx]),
   rfl,
   (GET_user_not_found sampleCodec
      (freshCtx (Request.mk "GET" "/api/v1/users/2" [] "") [("id", "2")]
        (UserController.DeleteUser
          (freshCtx (Request.mk "DELETE" "/api/v1/users/2" [] "") [("id", "2")] twoUsers)).app)
      "2" 2 rfl rfl rfl).2
      (freshCtx (Request.mk "DELETE" "/api/v1/users/2" [] "") [("id", "2")] twoUsers)
      (UserController.DeleteUser
        (freshCtx (Request.mk "DELETE" "/api/v1/users/2" [] "") [("id", "2")] twoUsers))
      rfl rfl rfl rfl⟩

theorem applyUpdates_updatesOf (now : Nat) (req : UpdateUserRequest) (r : User) :
    applyUpdates now (UserService.updatesOf req) r = specUpdated now req r := by
  obtain ⟨n, e, a, p⟩ := req
  cases n <;> cases e <;> cases a <;> cases p <;>
    simp [applyUpdates, UserService.updatesOf, assignColumn, specUpdated]

theorem lookup_email_updatesOf (req : UpdateUserRequest) :
    (UserService.updatesOf req).lookup "email" = req.Email.map Any.str := by
  obtain ⟨n, e, a, p⟩ := req
  cases n <;> cases e <;> cases a <;> cases p <;>
    simp [UserService.updatesOf, List.lookup]

theorem First_ok_ID (db : DB) (id : Nat) (row : User) (h : db.First id = .ok row) :
    row.ID = id ∧ row.active = true ∧ row ∈ db.users := by
  unfold DB.First at h
  split at h
  · rename_i u hu
    simp only [Except.ok.injEq] at h
    subst h
    have h1 := List.find?_some hu
    simp only [Bool.and_eq_true, beq_iff_eq] at h1
    exact ⟨h1.1, h1.2, List.mem_of_find?_eq_some hu⟩
  · cases h

/-- C7 (as amended): for an existing user and an update request the store
accepts (no other row holds the new e-mail, when one is supplied), the map
`UpdateUser` hands to the store has exactly one entry per present request
field, carrying the supplied value; the update succeeds; in the table the
active row with this id has each of name, e-mail, age and phone replaced by the
supplied value when the field is present (also when that value is the empty
string or zero) and untouched when it is absent, with `updated_at` stamped by
the store, and every other row is untouched; so an update that supplies only
the name leaves e-mail, age and phone as stored. -/
theorem UpdateUser_writes_present_fields (db : DB) (id : Nat) (req : UpdateUserRequest) (row : User)
    (hrow : db.First id = .ok row)
    (hacc : ∀ e, req.Email = some e → ∀ r ∈ db.users, r.ID ≠ id → r.Email ≠ e) :
    UserService.updatesOf req
        = (req.Name.map (fun v => ("name", Any.str v))).toList
          ++ (req.Email.map (fun v => ("email", Any.str v))).toList
          ++ (req.Age.map (fun v => ("age", Any.int v))).toList
          ++ (req.Phone.map (fun v => ("phone", Any.str v))).toList
      ∧ UserService.UpdateUser db id req
        = (.ok (specUpdated db.now req row),
           DB.mk (db.users.map
               (fun r => if r.ID == id && r.active then specUpdated db.now req r else r))
             db.seq db.now)
      ∧ (req.Email = none → req.Age = none → req.Phone = none →
          ∀ r, (specUpdated db.now req r).Email = r.Email
            ∧ (specUpdated db.now req r).Age = r.Age
            ∧ (specUpdated db.now req r).Phone = r.Phone
            ∧ (specUpdated db.now req r).Name = req.Name.getD r.Name) := by
  obtain ⟨hid, _, _⟩ := First_ok_ID db id row hrow
  refine ⟨?_, ?_, ?_⟩
  · obtain ⟨n, e, a, p⟩ := req
    cases n <;> cases e <;> cases a <;> cases p <;> simp [UserService.updatesOf]
  · have hclash : (match (UserService.updatesOf req).lookup "email" with
        | some (Any.str e) =>
          db.users.any (fun r => r.ID == row.ID && r.active)
            && db.users.any (fun r => r.ID != row.ID && r.Email == e)
        | _ => false) = false := by
      rw [lookup_email_updatesOf]
      cases he : req.Email with
      | none => simp
      | some e =>
        have h2 : db.users.any (fun r => r.ID != row.ID && r.Email == e) = false := by
          rw [List.any_eq_false]
          intro r hr
          by_cases hri : r.ID = id
          · simp [hri, hid]
          · simp [hacc e he r hr hri]
        simp [h2]
    rw [hid] at hclash
    simp only [UserService.UpdateUser, hrow, DB.Updates, applyUpdates_updatesOf, hid, hclash]
    simp
  · intro he ha hp r
    simp [specUpdated, he, ha, hp]

/-- C7, worked instance: the update of the test suite, which supplies only a
name. -/
theorem UpdateUser_writes_present_fields_witness :
    twoUsers.First 2 = .ok (sampleUser 2 "Bob" "bob@example.com")
    ∧ UserService.UpdateUser twoUsers 2 (UpdateUserRequest.mk (some "Updated Name") none none none)
        = (.ok (specUpdated twoUsers.now (UpdateUserRequest.mk (some "Updated Name") none none none)
              (sampleUser 2 "Bob" "bob@example.com")),
           DB.mk (twoUsers.users.map
               (fun r => if r.ID == 2 && r.active
                 then specUpdated twoUsers.now
                   (UpdateUserRequest.mk (some "Updated Name") none none none) r
                 else r))
             twoUsers.seq twoUsers.now) :=
  ⟨rfl,
   (UpdateUser_writes_present_fields twoUsers 2
      (UpdateUserRequest.mk (some "Updated Name") none none none)
      (sampleUser 2 "Bob" "bob@example.com") rfl (by simp)).2.1⟩

/-- C7, counterexample to the claim as stated: user 2 exists and the request
supplies an e-mail, yet `UpdateUser` writes no column at all, because the
unique index rejects an e-mail held by user 1. -/
theorem UpdateUser_email_clash_writes_nothing :
    twoUsers.First 2 = .ok (sampleUser 2 "Bob" "bob@example.com")
    ∧ UserService.UpdateUser twoUsers 2 (UpdateUserRequest.mk none (some "ann@example.com") none none)
        = (.error ErrUniqueEmail, twoUsers) := by
  exact ⟨rfl, rfl⟩

theorem effectivePageSize_pos (req : GetUsersQuery) : 0 < effectivePageSize req := by
  unfold effectivePageSize
  split <;> omega

theorem GetUsers_eq (db : DB) (req : GetUsersQuery) :
    UserService.GetUsers db req
      = ({ req with Page := effectivePage req, PageSize := effectivePageSize req },
         .ok (pageOf req (matching db req), ((matching db req).length : Int))) := by
  have hps := effectivePageSize_pos req
  have hge : effectivePageSize req ≥ 0 := by omega
  obtain ⟨pg, ps, nm, em⟩ := req
  simp only [UserService.GetUsers, Stmt.Count, Stmt.Find, Stmt.Offset, Stmt.Limit, pageOf, matching,
    filterStmt, offsetOf, effectivePage, effectivePageSize] at *
  by_cases h1 : pg ≤ 0 <;> by_cases h2 : ps ≤ 0 <;> by_cases h3 : nm = "" <;>
    by_cases h4 : em = "" <;> simp [h1, h2, h3, h4] at hge ⊢ <;>
    first | rfl | (rw [if_pos hge]; rfl)

theorem serve_GET_users (k : Codec) (c : Ctx) (hM : c.Request.Method = "GET") :
    serve (New k) "/api/v1/users" c
      = some (BindAndCall (ginBinder k) callGetUsers [DtoType.GetUsersQuery] c) := by
  simp [serve, New, List.find?, hM]

theorem GET_users_bound (k : Codec) (c : Ctx) (q : GetUsersQuery) (hM : c.Request.Method = "GET")
    (hmap : mapFormGetUsersQuery k.quote c.Request.Query (GetUsersQuery.mk 0 0 "" "") = .ok q)
    (hval : validateGetUsersQuery q = .ok q) :
    ∃ c1, serve (New k) "/api/v1/users" c = some c1
      ∧ c1.Writer = c.Writer ++ [(200, Response.mk 200 "success"
          (some (.listing (pageOf q (matching c.app q)) ((matching c.app q).length : Int)
            (effectivePage q) (effectivePageSize q))))]
      ∧ c1.app = c.app ∧ c1.aborted = c.aborted := by
  have hm : bindsOn c.Request.Method := by rw [hM]; decide
  have hs : specPopulate (ginBinder k) c.Request 0 DtoType.GetUsersQuery
      = .ok (Dto.getUsersQuery q) := by
    unfold specPopulate
    rw [if_pos (Or.inl hM)]
    simp only [ginBinder, decodeThen, hmap, hval]
    rfl
  obtain ⟨evs, _, _, hcall⟩ :=
    BindAndCall_ok (ginBinder k) [DtoType.GetUsersQuery]
      [Dto.getUsersQuery q] c hm (List.Forall₂.cons hs List.Forall₂.nil)
  refine ⟨_, serve_GET_users k c hM, ?_⟩
  rw [hcall callGetUsers]
  simp [callGetUsers, UserController.GetUsers, Context.emit, GetUsers_eq, SuccessResponse_200]

theorem wrapInt64_zero : wrapInt64 0 = 0 := by decide

theorem ParseInt_ne_empty (s : String) (n : Int) (h : ParseInt s = .ok n) : s ≠ "" := by
  intro hs
  subst hs
  simp [ParseInt] at h

theorem wrapInt64_of_range (x : Int) (h1 : -(2 ^ 63) ≤ x) (h2 : x < 2 ^ 63) : wrapInt64 x = x := by
  unfold wrapInt64
  rw [Int.emod_eq_of_lt (by omega) (by omega)]
  omega

theorem effectivePage_pos (req : GetUsersQuery) : 0 < effectivePage req := by
  unfold effectivePage
  split <;> omega

/-- The list query away from overflow: the total is the number of matching
active users whatever the page and page size, the page holds at most the
effective page size, and when `(page - 1) * page_size` fits in 64 bits the page
is the run of matching users from that position, of that length. -/
theorem GetUsers_total_and_page (db : DB) (req : GetUsersQuery) :
    (UserService.GetUsers db req).2
        = .ok (pageOf req (matching db req), ((matching db req).length : Int))
      ∧ (∀ pg ps : Int, matching db { req with Page := pg, PageSize := ps } = matching db req)
      ∧ (pageOf req (matching db req)).length ≤ (effectivePageSize req).toNat
      ∧ ((effectivePage req - 1) * effectivePageSize req < 2 ^ 63 →
          pageOf req (matching db req)
            = ((matching db req).drop ((effectivePage req - 1) * effectivePageSize req).toNat).take
                (effectivePageSize req).toNat) := by
  have hp := effectivePage_pos req
  have hs := effectivePageSize_pos req
  refine ⟨by rw [GetUsers_eq], fun _ _ => rfl, ?_, ?_⟩
  · simp only [pageOf, List.length_take]
    exact Nat.min_le_left _ _
  · intro hlt
    have h0 : 0 ≤ (effectivePage req - 1) * effectivePageSize req :=
      Int.mul_nonneg (by omega) (by omega)
    have h1 : effectivePage req - 1 < 2 ^ 63 := by
      by_contra hcon
      have : (2 : Int) ^ 63 * 1 ≤ (effectivePage req - 1) * effectivePageSize req :=
        Int.mul_le_mul (by omega) (by omega) (by omega) (by omega)
      omega
    have hw : offsetOf req = (effectivePage req - 1) * effectivePageSize req := by
      unfold offsetOf
      rw [wrapInt64_of_range (effectivePage req - 1) (by omega) h1,
        wrapInt64_of_range _ (by omega) hlt]
    simp only [pageOf, hw]
    by_cases hz : (effectivePage req - 1) * effectivePageSize req > 0
    · rw [if_pos hz]
    · have : (effectivePage req - 1) * effectivePageSize req = 0 := by omega
      rw [if_neg hz, this]
      simp

/-- Pagination defaults and echo: the service replaces a non-positive page by 1
and a non-positive page size by 10 (so with both non-positive it returns the
first 10 matching users), and leaves positive values as they are; a GET on
/api/v1/users without `page` and `page_size` answers 200 with the first 10
matching users and echoes page = 1 and page_size = 10; with valid values
`p >= 1` and `1 <= n <= 100` supplied it answers 200, echoes them unchanged,
returns at most `n` users and, when `(p - 1) * n` fits in 64 bits, exactly the
`n` matching users from position `(p - 1) * n` on. -/
theorem GetUsers_pagination_defaults (k : Codec) (c : Ctx) (hM : c.Request.Method = "GET") :
    (∀ (db : DB) (req : GetUsersQuery),
        (UserService.GetUsers db req).1.Page = (if req.Page ≤ 0 then 1 else req.Page)
        ∧ (UserService.GetUsers db req).1.PageSize = (if req.PageSize ≤ 0 then 10 else req.PageSize)
        ∧ (UserService.GetUsers db req).2
            = .ok (pageOf req (matching db req), ((matching db req).length : Int))
        ∧ (req.Page ≤ 0 → req.PageSize ≤ 0 → pageOf req (matching db req) = (matching db req).take 10))
    ∧ (c.Request.Query.lookup "page" = none → c.Request.Query.lookup "page_size" = none →
        ∃ c1 q, serve (New k) "/api/v1/users" c = some c1
          ∧ q = GetUsersQuery.mk 0 0 (formString c.Request.Query "name" "")
                (formString c.Request.Query "email" "")
          ∧ c1.Writer = c.Writer ++ [(200, Response.mk 200 "success"
              (some (.listing ((matching c.app q).take 10) ((matching c.app q).length : Int) 1 10)))])
    ∧ (∀ (sp sn : String) (p n : Int),
        c.Request.Query.lookup "page" = some sp → ParseInt (TrimSpace sp) = .ok p → 1 ≤ p →
        c.Request.Query.lookup "page_size" = some sn → ParseInt (TrimSpace sn) = .ok n →
        1 ≤ n → n ≤ 100 →
        ∃ c1 q users, serve (New k) "/api/v1/users" c = some c1
          ∧ q = GetUsersQuery.mk p n (formString c.Request.Query "name" "")
                (formString c.Request.Query "email" "")
          ∧ c1.Writer = c.Writer ++ [(200, Response.mk 200 "success"
              (some (.listing users ((matching c.app q).length : Int) p n)))]
          ∧ users.length ≤ n.toNat
          ∧ ((p - 1) * n < 2 ^ 63 →
              users = ((matching c.app q).drop ((p - 1) * n).toNat).take n.toNat)) := by
  refine ⟨?_, ?_, ?_⟩
  · intro db req
    rw [GetUsers_eq]
    refine ⟨rfl, rfl, rfl, ?_⟩
    intro h1 h2
    simp [pageOf, offsetOf, effectivePage, effectivePageSize, h1, h2, wrapInt64_zero]
  · intro h1 h2
    have hmap : mapFormGetUsersQuery k.quote c.Request.Query (GetUsersQuery.mk 0 0 "" "")
        = .ok (GetUsersQuery.mk 0 0 (formString c.Request.Query "name" "")
            (formString c.Request.Query "email" "")) := by
      simp [mapFormGetUsersQuery, formInt, h1, h2]
    obtain ⟨c1, hs, hw, _, _⟩ := GET_users_bound k c _ hM hmap
      (by simp [validateGetUsersQuery, validated])
    refine ⟨c1, _, hs, rfl, ?_⟩
    rw [hw]
    simp [pageOf, offsetOf, effectivePage, effectivePageSize, wrapInt64_zero]
  · intro sp sn p n h1 hp hp1 h2 hn hn1 hn2
    have hsp := ParseInt_ne_empty _ p hp
    have hsn := ParseInt_ne_empty _ n hn
    have hmap : mapFormGetUsersQuery k.quote c.Request.Query (GetUsersQuery.mk 0 0 "" "")
        = .ok (GetUsersQuery.mk p n (formString c.Request.Query "name" "")
            (formString c.Request.Query "email" "")) := by
      simp [mapFormGetUsersQuery, formInt, h1, h2, hsp, hsn, hp, hn]
    have hp0 : ¬ p = 0 := by omega
    have hn0 : ¬ n = 0 := by omega
    have hpl : ¬ p < 1 := by omega
    have hmm : minMax 1 100 n = none := by
      unfold minMax
      rw [if_neg (by omega), if_neg (by omega)]
    obtain ⟨c1, hs, hw, _, _⟩ := GET_users_bound k c _ hM hmap
      (by simp [validateGetUsersQuery, validated, hp0, hn0, hpl, hmm])
    have he1 : effectivePage (GetUsersQuery.mk p n (formString c.Request.Query "name" "")
        (formString c.Request.Query "email" "")) = p := by
      simp only [effectivePage]; rw [if_neg (by omega)]
    have he2 : effectivePageSize (GetUsersQuery.mk p n (formString c.Request.Query "name" "")
        (formString c.Request.Query "email" "")) = n := by
      simp only [effectivePageSize]; rw [if_neg (by omega)]
    obtain ⟨_, _, hlen, hexact⟩ := GetUsers_total_and_page c.app
      (GetUsersQuery.mk p n (formString c.Request.Query "name" "")
        (formString c.Request.Query "email" ""))
    rw [he1, he2] at hexact
    rw [he2] at hlen
    refine ⟨c1, _, _, hs, rfl, ?_, hlen, hexact⟩
    rw [hw, he1, he2]

/-- Worked instance of the pagination defaults: the list request without
parameters on a table of two users. -/
theorem GetUsers_pagination_defaults_witness :
    (freshCtx (Request.mk "GET" "/api/v1/users" [] "") [] twoUsers : Ctx).Request.Method = "GET"
    ∧ ∃ c1 q, serve (New sampleCodec) "/api/v1/users"
          (freshCtx (Request.mk "GET" "/api/v1/users" [] "") [] twoUsers) = some c1
      ∧ q = GetUsersQuery.mk 0 0 (formString [] "name" "") (formString [] "email" "")
      ∧ c1.Writer = [] ++ [(200, Response.mk 200 "success"
          (some (.listing ((matching twoUsers q).take 10) ((matching twoUsers q).length : Int) 1 10)))] :=
  ⟨rfl,
   (GetUsers_pagination_defaults sampleCodec
      (freshCtx (Request.mk "GET" "/api/v1/users" [] "") [] twoUsers) rfl).2.1 rfl rfl⟩

/-- C8, the code at the failing input: the request page = 2^61 + 1,
page_size = 8 passes binding and validation and the response echoes both
values, but the page it carries is the one of page = 1: the first two users of
the table, although page 2^61 + 1 of size 8 holds no user. The offset
`(page - 1) * page_size = 2^64` has wrapped to 0. -/
theorem GET_users_supplied_page_not_used :
    (serve (New sampleCodec) "/api/v1/users"
        (freshCtx (Request.mk "GET" "/api/v1/users"
          [("page", "2305843009213693953"), ("page_size", "8")] "") [] twoUsers)).map
          (fun c => c.Writer)
        = some [(200, Response.mk 200 "success"
            (some (.listing twoUsers.users 2 2305843009213693953 8)))]
      ∧ (serve (New sampleCodec) "/api/v1/users"
        (freshCtx (Request.mk "GET" "/api/v1/users"
          [("page", "1"), ("page_size", "8")] "") [] twoUsers)).map (fun c => c.Writer)
        = some [(200, Response.mk 200 "success" (some (.listing twoUsers.users 2 1 8)))]
      ∧ offsetOf (GetUsersQuery.mk 2305843009213693953 8 "" "") = 0
      ∧ ((matching twoUsers (GetUsersQuery.mk 2305843009213693953 8 "" "")).drop
            ((2305843009213693953 - 1) * 8)).take 8 = [] := by
  exact ⟨rfl, rfl, by decide, by decide⟩

/-- C9, the code at the failing input: the query page = 2^62 + 1, page_size = 4
passes validation, its offset `(page - 1) * page_size = 2^64` wraps to 0 in a
64-bit `int`, and `GetUsers` returns the first two users of the table, although
the positions from 2^64 on hold no user. -/
theorem GetUsers_page_overflow :
    validateGetUsersQuery (GetUsersQuery.mk 4611686018427387905 4 "" "")
        = .ok (GetUsersQuery.mk 4611686018427387905 4 "" "")
      ∧ offsetOf (GetUsersQuery.mk 4611686018427387905 4 "" "") = 0
      ∧ UserService.GetUsers twoUsers (GetUsersQuery.mk 4611686018427387905 4 "" "")
          = (GetUsersQuery.mk 4611686018427387905 4 "" "", .ok (twoUsers.users, 2))
      ∧ ((matching twoUsers (GetUsersQuery.mk 4611686018427387905 4 "" "")).drop
            ((4611686018427387905 - 1) * 4)).take 4 = [] := by
  exact ⟨rfl, by decide, rfl, by decide⟩

/-- C10, the code at the failing input: with the name filter `_` the list
query returns Ann and Bob, although `_` occurs in neither name; with the name
filter `%` likewise. -/
theorem GetUsers_wildcard_filter :
    UserService.GetUsers twoUsers (GetUsersQuery.mk 1 10 "_" "")
        = (GetUsersQuery.mk 1 10 "_" "", .ok (twoUsers.users, 2))
      ∧ UserService.GetUsers twoUsers (GetUsersQuery.mk 1 10 "%" "")
        = (GetUsersQuery.mk 1 10 "%" "", .ok (twoUsers.users, 2))
      ∧ twoUsers.users.map (fun u => u.Name) = ["Ann", "Bob"]
      ∧ containsFold "_" "Ann" = false ∧ containsFold "_" "Bob" = false
      ∧ containsFold "%" "Ann" = false ∧ containsFold "%" "Bob" = false := by
  exact ⟨rfl, rfl, rfl, by decide, by decide, by decide, by decide⟩

theorem like_cons_cons (c : Char) (ps : List Char) (hc : c ≠ '%') (t : Char) (ts : List Char) :
    like (c :: ps) (t :: ts) = ((decide (c = '_') || c.toLower == t.toLower) && like ps ts) := by
  simp only [like, if_neg hc]

theorem like_cons_nil (c : Char) (ps : List Char) (hc : c ≠ '%') : like (c :: ps) [] = false := by
  simp only [like, if_neg hc]

theorem like_percent (ps t : List Char) : like ('%' :: ps) t = t.tails.any (like ps) := by
  simp only [like, if_true]

theorem like_then_any (x : List Char) (hx : ∀ ch ∈ x, ch ≠ '%' ∧ ch ≠ '_') :
    ∀ s : List Char, like (x ++ ['%']) s = true
      ↔ ∃ p r, s = p ++ r ∧ p.map Char.toLower = x.map Char.toLower := by
  induction x with
  | nil =>
    intro s
    constructor
    · intro _
      exact ⟨[], s, rfl, rfl⟩
    · intro _
      rw [List.nil_append, like_percent, List.any_eq_true]
      exact ⟨[], (List.mem_tails _ _).mpr List.nil_suffix, rfl⟩
  | cons c x1 ih =>
    intro s
    have hc := hx c (List.mem_cons_self _ _)
    have ih1 := ih (fun ch hch => hx ch (List.mem_cons_of_mem _ hch))
    cases s with
    | nil =>
      rw [List.cons_append, like_cons_nil c _ hc.1]
      simp
    | cons t ts =>
      rw [List.cons_append, like_cons_cons c _ hc.1]
      constructor
      · intro h
        simp only [Bool.and_eq_true, Bool.or_eq_true, decide_eq_true_eq, beq_iff_eq] at h
        obtain ⟨h1, h2⟩ := h
        obtain ⟨p, r, hs, hp⟩ := (ih1 ts).mp h2
        have hlow : c.toLower = t.toLower := by
          rcases h1 with h1 | h1
          · exact absurd h1 hc.2
          · exact h1
        exact ⟨t :: p, r, by simp [hs], by simp [hp, hlow]⟩
      · rintro ⟨p, r, hs, hp⟩
        cases p with
        | nil => simp at hp
        | cons t0 p1 =>
          simp only [List.cons_append, List.cons.injEq] at hs
          simp only [List.map_cons, List.cons.injEq] at hp
          simp only [Bool.and_eq_true, Bool.or_eq_true, decide_eq_true_eq, beq_iff_eq]
          exact ⟨Or.inr (by rw [hs.1]; exact hp.1.symm), (ih1 ts).mpr ⟨p1, r, hs.2, hp.2⟩⟩

/-- For a filter text without `%` and `_`, the condition `field LIKE
'%' + text + '%'` is the substring test of the specification. -/
theorem like_is_substring (x t : String) (hx : ∀ ch ∈ x.toList, ch ≠ '%' ∧ ch ≠ '_') :
    like ("%" ++ x ++ "%").toList t.toList = containsFold x t := by
  have hl : ("%" ++ x ++ "%").toList = '%' :: (x.toList ++ ['%']) := by
    simp [String.toList]
  rw [hl]
  apply Bool.eq_iff_iff.mpr
  rw [like_percent]
  simp only [List.any_eq_true, List.mem_tails, containsFold, decide_eq_true_eq]
  constructor
  · rintro ⟨s, hs, hlike⟩
    obtain ⟨p, r, hpr, hp⟩ := (like_then_any x.toList hx s).mp hlike
    obtain ⟨pre, hpre⟩ := hs
    refine ⟨pre.map Char.toLower, r.map Char.toLower, ?_⟩
    rw [← hpre, hpr, ← hp]
    simp
  · rintro ⟨a, b, hab⟩
    obtain ⟨l1, l2, h1, h2, h3⟩ := List.map_eq_append_iff.mp hab.symm
    obtain ⟨l3, l4, h4, h5, h6⟩ := List.map_eq_append_iff.mp h2
    refine ⟨l4 ++ l2, ⟨l3, by rw [h1, h4]; simp⟩, ?_⟩
    exact (like_then_any x.toList hx _).mpr ⟨l4, l2, rfl, h6⟩

/-- For filter texts without `%` and `_`, the list query selects the active
users whose name contains the name filter and whose e-mail contains the e-mail
filter (an empty filter does not restrict). -/
theorem selects_wildcard_free (req : GetUsersQuery) (u : User)
    (hn : ∀ ch ∈ req.Name.toList, ch ≠ '%' ∧ ch ≠ '_')
    (he : ∀ ch ∈ req.Email.toList, ch ≠ '%' ∧ ch ≠ '_') :
    (filterStmt req).selects u
      = (u.active && (decide (req.Name = "") || containsFold req.Name u.Name)
          && (decide (req.Email = "") || containsFold req.Email u.Email)) := by
  have h1 := like_is_substring req.Name u.Name hn
  have h2 := like_is_substring req.Email u.Email he
  by_cases hN : req.Name = "" <;> by_cases hE : req.Email = "" <;>
    simp [filterStmt, Stmt.selects, Stmt.Where, DB.Model, Column.of, hN, hE, ← h1, ← h2,
      Bool.and_assoc]

end Users

section PathID

theorem decimalValue_ge (cs : List Char) : ∀ n, n ≤ decimalValue cs n := by
  induction cs with
  | nil => intro n; exact Nat.le_refl n
  | cons ch rest ih =>
    intro n
    have h := ih (n * 10 + (ch.toNat - '0'.toNat))
    simp only [decimalValue, List.foldl_cons] at h ⊢
    omega

theorem digit_le_nine (ch : Char) (h : '0' ≤ ch ∧ ch ≤ '9') : ch.toNat - '0'.toNat ≤ 9 := by
  have h1 : ch.toNat ≤ '9'.toNat := h.2
  have h2 : '9'.toNat = 57 := rfl
  have h3 : '0'.toNat = 48 := rfl
  omega

/-- The digit loop of `ParseUint` accepts exactly the runs of digits whose
value does not exceed `maxVal`, and returns that value. -/
theorem ParseUint_loop_ok_iff (maxVal : Nat) (hmax : maxVal ≤ 18446744073709551615) :
    ∀ (cs : List Char) (n v : Nat), n ≤ maxVal →
      (ParseUint.loop maxVal cs n = .ok v
        ↔ (∀ ch ∈ cs, '0' ≤ ch ∧ ch ≤ '9') ∧ decimalValue cs n = v ∧ v ≤ maxVal) := by
  intro cs
  induction cs with
  | nil =>
    intro n v hn
    simp only [ParseUint.loop, Except.ok.injEq, decimalValue, List.foldl_nil, List.not_mem_nil,
      false_implies, implies_true, true_and]
    constructor
    · intro h; subst h; exact ⟨rfl, hn⟩
    · intro h; exact h.1
  | cons ch rest ih =>
    intro n v hn
    by_cases hd : '0' ≤ ch ∧ ch ≤ '9'
    · have hd9 := digit_le_nine ch hd
      have hmono := decimalValue_ge rest (n * 10 + (ch.toNat - '0'.toNat))
      have hM : maxUint64 = 18446744073709551615 := by decide
      have hval : decimalValue (ch :: rest) n
          = decimalValue rest (n * 10 + (ch.toNat - '0'.toNat)) := rfl
      have hall : (∀ x ∈ ch :: rest, '0' ≤ x ∧ x ≤ '9') ↔ (∀ x ∈ rest, '0' ≤ x ∧ x ≤ '9') := by
        simp only [List.mem_cons, forall_eq_or_imp, hd, true_and]
      rw [hall, hval]
      simp only [ParseUint.loop, if_pos hd, hM]
      by_cases hc : n ≥ 18446744073709551615 / 10 + 1
      · rw [if_pos hc]
        constructor
        · intro h; cases h
        · rintro ⟨_, hv, hle⟩; omega
      · rw [if_neg hc]
        by_cases hov : (n * 10 + (ch.toNat - '0'.toNat)) % 2 ^ 64 < n * 10
            ∨ (n * 10 + (ch.toNat - '0'.toNat)) % 2 ^ 64 > maxVal
        · rw [if_pos hov]
          constructor
          · intro h; cases h
          · rintro ⟨_, hv, hle⟩; omega
        · rw [if_neg hov]
          have heq : (n * 10 + (ch.toNat - '0'.toNat)) % 2 ^ 64
              = n * 10 + (ch.toNat - '0'.toNat) := by omega
          rw [heq]
          exact ih _ v (by omega)
    · have herr : ParseUint.loop maxVal (ch :: rest) n = .error "invalid syntax" := by
        simp only [ParseUint.loop, if_neg hd]
      rw [herr]
      constructor
      · intro h; cases h
      · rintro ⟨h, _, _⟩; exact absurd (h ch (List.mem_cons_self _ _)) hd

/-- `ParseUint(s, 10, 32)` succeeds exactly on the texts of the specification,
with their value. -/
theorem ParseUint_ok_iff (s : String) (v : Nat) :
    ParseUint s 32 = .ok v ↔ isUint32Text s ∧ decimalValue s.toList 0 = v := by
  unfold ParseUint isUint32Text
  by_cases hs : s = ""
  · rw [if_pos hs]
    constructor
    · intro h; cases h
    · rintro ⟨⟨h, _, _⟩, _⟩; exact absurd hs h
  · rw [if_neg hs]
    have h32 : 2 ^ 32 - 1 = 4294967295 := by decide
    rw [h32, ParseUint_loop_ok_iff 4294967295 (by omega) s.toList 0 v (by omega)]
    constructor
    · rintro ⟨h1, h2, h3⟩; exact ⟨⟨hs, h1, by omega⟩, h2⟩
    · rintro ⟨⟨_, h1, h3⟩, h2⟩; exact ⟨h1, h2, by omega⟩

theorem ParseUint_error_of_not (s : String) (h : ¬ isUint32Text s) :
    ∃ e, ParseUint s 32 = .error e := by
  cases hp : ParseUint s 32 with
  | error e => exact ⟨e, rfl⟩
  | ok v => exact absurd ((ParseUint_ok_iff s v).mp hp).1 h

theorem pathID_rejected (c : Ctx)
    (hid : ∀ s, c.Params.lookup "id" = some s → ¬ isUint32Text s) :
    (∃ e, GetPathID c = .error e) ∨ (∃ s e, GetPathID c = .ok s ∧ ParseUint s 32 = .error e) := by
  cases hl : c.Params.lookup "id" with
  | none =>
    left
    refine ⟨.validation
      "Key: 'PathParam.ID' Error:Field validation for 'ID' failed on the 'required' tag", ?_⟩
    simp [GetPathID, BindPathParam, hl]
  | some s =>
    by_cases hs : s = ""
    · left
      refine ⟨.validation
        "Key: 'PathParam.ID' Error:Field validation for 'ID' failed on the 'required' tag", ?_⟩
      simp [GetPathID, BindPathParam, hl, hs]
    · right
      obtain ⟨e, he⟩ := ParseUint_error_of_not s (hid s hl)
      exact ⟨s, e, GetPathID_ok c s hl hs, he⟩

theorem GetUser_invalidID (c : Ctx)
    (hid : ∀ s, c.Params.lookup "id" = some s → ¬ isUint32Text s) :
    UserController.GetUser c = invalidID c := by
  rcases pathID_rejected c hid with ⟨e, he⟩ | ⟨s, e, hs, he⟩
  · simp only [UserController.GetUser, he]; rfl
  · simp only [UserController.GetUser, hs, he]; rfl

theorem DeleteUser_invalidID (c : Ctx)
    (hid : ∀ s, c.Params.lookup "id" = some s → ¬ isUint32Text s) :
    UserController.DeleteUser c = invalidID c := by
  rcases pathID_rejected c hid with ⟨e, he⟩ | ⟨s, e, hs, he⟩
  · simp only [UserController.DeleteUser, he]; rfl
  · simp only [UserController.DeleteUser, hs, he]; rfl

theorem UpdateUser_invalidID (c : Ctx) (req : UpdateUserRequest)
    (hid : ∀ s, c.Params.lookup "id" = some s → ¬ isUint32Text s) :
    UserController.UpdateUser c req = invalidID c := by
  rcases pathID_rejected c hid with ⟨e, he⟩ | ⟨s, e, hs, he⟩
  · simp only [UserController.UpdateUser, he]; rfl
  · simp only [UserController.UpdateUser, hs, he]; rfl

theorem serve_PUT_user (k : Codec) (c : Ctx) (hM : c.Request.Method = "PUT") :
    serve (New k) "/api/v1/users/:id" c
      = some (BindAndCall (ginBinder k) callUpdateUser [DtoType.UpdateUserRequest] c) := by
  simp [serve, New, List.find?, hM]

/-- A PUT on /api/v1/users/:id whose body binds to `req` runs the controller
on `req`, in a context that differs from the incoming one only by the log. -/
theorem PUT_user_bound (k : Codec) (c : Ctx) (req : UpdateUserRequest)
    (hM : c.Request.Method = "PUT")
    (hbind : (ginBinder k).ShouldBindJSON c.Request ((ginBinder k).New DtoType.UpdateUserRequest)
      = .ok (Dto.updateUserRequest req)) :
    ∃ evs, serve (New k) "/api/v1/users/:id" c
      = some (UserController.UpdateUser (c.emit evs) req) := by
  have hm : bindsOn c.Request.Method := by rw [hM]; decide
  have hs : specPopulate (ginBinder k) c.Request 0 DtoType.UpdateUserRequest
      = .ok (Dto.updateUserRequest req) := by
    unfold specPopulate
    rw [if_neg (by rw [hM]; decide), if_pos rfl]
    exact hbind
  obtain ⟨evs, _, _, hcall⟩ :=
    BindAndCall_ok (ginBinder k) [DtoType.UpdateUserRequest]
      [Dto.updateUserRequest req] c hm (List.Forall₂.cons hs List.Forall₂.nil)
  refine ⟨evs ++ [callingEvent c.Request], ?_⟩
  rw [serve_PUT_user k c hM, hcall callUpdateUser]
  rfl

/-- C11 (as amended): when the id path segment is not a base-10 unsigned
integer that fits in 32 bits (absent, empty, signed, with a character that is
no digit, or above 4294967295), each of the controller methods `GetUser`,
`DeleteUser` and `UpdateUser` (for every request body handed to it) only writes
the response of status 400 with the envelope (400, "Invalid user ID", no data):
the database and everything else in the context stay as they were. So do the
routes GET and DELETE /api/v1/users/:id for every such request, and the route
PUT /api/v1/users/:id for every such request whose body passes binding and
validation (the middleware then only adds its log events). -/
theorem invalid_path_id_rejected (k : Codec) (c : Ctx)
    (hid : ∀ s, c.Params.lookup "id" = some s → ¬ isUint32Text s) :
    UserController.GetUser c = invalidID c
      ∧ UserController.DeleteUser c = invalidID c
      ∧ (∀ req, UserController.UpdateUser c req = invalidID c)
      ∧ (c.Request.Method = "GET" → serve (New k) "/api/v1/users/:id" c = some (invalidID c))
      ∧ (c.Request.Method = "DELETE" → serve (New k) "/api/v1/users/:id" c = some (invalidID c))
      ∧ (c.Request.Method = "PUT" → ∀ req,
          (ginBinder k).ShouldBindJSON c.Request ((ginBinder k).New DtoType.UpdateUserRequest)
            = .ok (Dto.updateUserRequest req) →
          ∃ evs, serve (New k) "/api/v1/users/:id" c = some (invalidID (c.emit evs)))
      ∧ (∀ evs, (invalidID (c.emit evs)).app = c.app
          ∧ (invalidID (c.emit evs)).Writer
              = c.Writer ++ [(400, Response.mk 400 "Invalid user ID" none)]) := by
  refine ⟨GetUser_invalidID c hid, DeleteUser_invalidID c hid,
    fun req => UpdateUser_invalidID c req hid, ?_, ?_, ?_, fun _ => ⟨rfl, rfl⟩⟩
  · intro hM
    rw [serve_GET_user k c hM, GetUser_invalidID c hid]
  · intro hM
    rw [serve_DELETE_user k c hM, DeleteUser_invalidID c hid]
  · intro hM req hbind
    obtain ⟨evs, hs⟩ := PUT_user_bound k c req hM hbind
    exact ⟨evs, by rw [hs, UpdateUser_invalidID (c.emit evs) req hid]⟩

/-- C11, worked instance: the texts `abc`, `-1`, `+1`, the empty text and
4294967296 are rejected, 4294967295 is accepted, and a GET with the id `abc`
gets the 400 response. -/
theorem invalid_path_id_rejected_witness :
    ¬ isUint32Text "abc" ∧ ¬ isUint32Text "-1" ∧ ¬ isUint32Text "+1" ∧ ¬ isUint32Text ""
      ∧ ¬ isUint32Text "4294967296" ∧ isUint32Text "4294967295"
      ∧ serve (New sampleCodec) "/api/v1/users/:id"
          (freshCtx (Request.mk "GET" "/api/v1/users/abc" [] "") [("id", "abc")] twoUsers)
        = some (invalidID
            (freshCtx (Request.mk "GET" "/api/v1/users/abc" [] "") [("id", "abc")] twoUsers)) :=
  ⟨by decide, by decide, by decide, by decide, by decide, by decide,
   (invalid_path_id_rejected sampleCodec
      (freshCtx (Request.mk "GET" "/api/v1/users/abc" [] "") [("id", "abc")] twoUsers)
      (by
        intro s hs
        have h : s = "abc" := by
          simpa [freshCtx, List.lookup] using hs.symm
        rw [h]
        decide)).2.2.2.1 rfl⟩

/-- C11, counterexample to the claim as stated: a PUT with the id `abc` whose
body does not decode is answered by the binding middleware, with status 400 but
with the decoding error as message, not "Invalid user ID". -/
theorem PUT_invalid_id_undecodable_body :
    ¬ isUint32Text "abc"
      ∧ (serve (New sampleCodec) "/api/v1/users/:id"
          (freshCtx (Request.mk "PUT" "/api/v1/users/abc" [] "junk") [("id", "abc")] twoUsers)).map
            (fun c => c.Writer)
        = some [(400, Response.mk 400 "invalid character" none)]
      ∧ "invalid character" ≠ "Invalid user ID" := by
  exact ⟨by decide, rfl, by decide⟩

end PathID

section UpdateAndOffset

/-- C12: for a PUT on /api/v1/users/:id whose id segment is a base-10 unsigned
integer that fits in 32 bits, whose body passes binding and validation, and
whose id has no active row in the table, the route writes exactly one response:
status 500 (not 404) with the envelope (500, the store's not-found message, no
data); the database is left as it was, so no row is written, and the rest of
the context changes only by the log events of the middleware. -/
theorem PUT_user_not_found (k : Codec) (c : Ctx) (idStr : String) (req : UpdateUserRequest)
    (hM : c.Request.Method = "PUT") (hP : c.Params.lookup "id" = some idStr)
    (hid : isUint32Text idStr)
    (hbind : (ginBinder k).ShouldBindJSON c.Request ((ginBinder k).New DtoType.UpdateUserRequest)
      = .ok (Dto.updateUserRequest req))
    (hno : ∀ r ∈ c.app.users, r.ID = decimalValue idStr.toList 0 → r.active = false) :
    ∃ evs, serve (New k) "/api/v1/users/:id" c
        = some (Context.mk c.Request c.Params
            (c.Writer ++ [(500, Response.mk 500 ErrRecordNotFound none)])
            c.bodyless c.aborted c.panicked (c.log ++ evs) c.app)
      ∧ (500 : Int) ≠ 404 := by
  obtain ⟨evs, hs⟩ := PUT_user_bound k c req hM hbind
  have hparse : ParseUint idStr 32 = .ok (decimalValue idStr.toList 0) :=
    (ParseUint_ok_iff idStr _).mpr ⟨hid, rfl⟩
  have hpath : GetPathID (c.emit evs) = .ok idStr := GetPathID_ok (c.emit evs) idStr hP hid.1
  have hfirst : (c.emit evs).app.First (decimalValue idStr.toList 0) = .error ErrRecordNotFound :=
    First_not_found c.app _ hno
  refine ⟨evs, ?_, by decide⟩
  rw [hs]
  simp only [UserController.UpdateUser, hpath, hparse, UserService.UpdateUser, hfirst]
  rfl

/-- C12, worked instance: the update of the test suite sent for id 7, which
the table of two users does not hold. -/
theorem PUT_user_not_found_witness :
    isUint32Text "7"
      ∧ ∃ evs, serve (New sampleCodec) "/api/v1/users/:id"
          (freshCtx (Request.mk "PUT" "/api/v1/users/7" [] "rename") [("id", "7")] twoUsers)
        = some (Context.mk (Request.mk "PUT" "/api/v1/users/7" [] "rename") [("id", "7")]
            ([] ++ [(500, Response.mk 500 ErrRecordNotFound none)])
            [] false none ([] ++ evs) twoUsers)
      ∧ (500 : Int) ≠ 404 :=
  ⟨by decide,
   PUT_user_not_found sampleCodec
    (freshCtx (Request.mk "PUT" "/api/v1/users/7" [] "rename") [("id", "7")] twoUsers) "7"
    (UpdateUserRequest.mk (some "Updated Name") none none none) rfl rfl (by decide) rfl
    (by decide)⟩

/-- Away from overflow the offset is the exact product and is not negative. -/
theorem offsetOf_exact (req : GetUsersQuery)
    (h : (effectivePage req - 1) * effectivePageSize req < 2 ^ 63) :
    offsetOf req = (effectivePage req - 1) * effectivePageSize req ∧ 0 ≤ offsetOf req := by
  have hp := effectivePage_pos req
  have hs := effectivePageSize_pos req
  have h0 : 0 ≤ (effectivePage req - 1) * effectivePageSize req :=
    Int.mul_nonneg (by omega) (by omega)
  have h1 : effectivePage req - 1 < 2 ^ 63 := by
    by_contra hcon
    have : (2 : Int) ^ 63 * 1 ≤ (effectivePage req - 1) * effectivePageSize req :=
      Int.mul_le_mul (by omega) (by omega) (by omega) (by omega)
    omega
  have hw : offsetOf req = (effectivePage req - 1) * effectivePageSize req := by
    unfold offsetOf
    rw [wrapInt64_of_range (effectivePage req - 1) (by omega) h1,
      wrapInt64_of_range _ (by omega) h]
  exact ⟨hw, by rw [hw]; exact h0⟩

/-- C13, the code at the failing input: the query page = 2^62, page_size = 4
passes validation; the exact product `(page - 1) * page_size` is 2^64 - 4, but
the offset `GetUsers` computes in a 64-bit `int` is -4, which is negative and
not the product, and the page returned starts at the first matching row
instead of skipping 2^64 - 4 rows. -/
theorem GetUsers_offset_wraps_negative :
    validateGetUsersQuery (GetUsersQuery.mk 4611686018427387904 4 "" "")
        = .ok (GetUsersQuery.mk 4611686018427387904 4 "" "")
      ∧ (4611686018427387904 - 1) * 4 = (18446744073709551612 : Int)
      ∧ offsetOf (GetUsersQuery.mk 4611686018427387904 4 "" "") = -4
      ∧ UserService.GetUsers twoUsers (GetUsersQuery.mk 4611686018427387904 4 "" "")
          = (GetUsersQuery.mk 4611686018427387904 4 "" "", .ok (twoUsers.users, 2))
      ∧ (matching twoUsers (GetUsersQuery.mk 4611686018427387904 4 "" "")).drop
          18446744073709551612 = [] := by
  exact ⟨rfl, by decide, by decide, rfl, by decide⟩

end UpdateAndOffset

end GinTemplate
